import Mathlib

/-! luminate-server: a shallow embedding of `src/index.js`.

The Express handlers of `src/index.js` are embedded as pure functions that take
the request, the authenticated identity and the document store and return the
HTTP response together with the store after the request. A handler runs from
its first statement to its response with no other request in between, but for
the shared transcript of `chatWithGPT`, where what other calls do during the
`await` is a parameter of the call; a field
of a JSON body is absent or has the type the route expects, unless said
otherwise; a rejected `save()` stands for a failed schema validation.

Built-ins of the JavaScript runtime and of the libraries the file requires
(Unicode case mapping, the implementation-defined part of `Date.parse`, bcrypt,
jsonwebtoken) are not part of the repository; they are gathered in the record
`Host` and every handler is parametric in it.
-/

namespace Luminate

/-! ## Strings -/

/-- ECMAScript `WhiteSpace` and `LineTerminator` code points, the ones
`String.prototype.trim` strips. -/
def isJsWhiteSpace (c : Char) : Bool :=
  let n := c.toNat
  n == 0x09 || n == 0x0A || n == 0x0B || n == 0x0C || n == 0x0D || n == 0x20 ||
  n == 0xA0 || n == 0x1680 || (0x2000 ≤ n && n ≤ 0x200A) || n == 0x2028 ||
  n == 0x2029 || n == 0x202F || n == 0x205F || n == 0x3000 || n == 0xFEFF

/-- Embeds `String.prototype.trim`, on the list of characters. -/
def trimChars (cs : List Char) : List Char :=
  ((cs.dropWhile isJsWhiteSpace).reverse.dropWhile isJsWhiteSpace).reverse

/-- Embeds `s.trim()`. -/
def jsTrim (s : String) : String := ⟨trimChars s.data⟩

/-- Embeds `xs.join(sep)` for an array of strings. -/
def jsJoin (sep : String) : List String → String
  | [] => ""
  | [x] => x
  | x :: y :: rest => x ++ sep ++ jsJoin sep (y :: rest)

/-- ASCII upper-casing: what `toUpperCase` does on ASCII input. Used to run the
handlers on concrete ASCII requests. -/
def asciiUpper (s : String) : String :=
  ⟨s.data.map fun c => if 'a'.toNat ≤ c.toNat ∧ c.toNat ≤ 'z'.toNat then Char.ofNat (c.toNat - 32) else c⟩

/-- ASCII lower-casing: what `toLowerCase` does on ASCII input. -/
def asciiLower (s : String) : String :=
  ⟨s.data.map fun c => if 'A'.toNat ≤ c.toNat ∧ c.toNat ≤ 'Z'.toNat then Char.ofNat (c.toNat + 32) else c⟩

/-! ## The host: runtime built-ins and required libraries -/

/-- The payload `{ userId, email }` the server puts in a token. -/
structure TokenPayload where
  userId : Nat
  email : String
  deriving DecidableEq, Repr

/-- Built-ins of the runtime and of the required libraries that `src/index.js`
calls and does not define.

* `toUpperCase`, `toLowerCase`: the Unicode case mappings of the runtime;
* `dateParseHost`: what `Date.parse` gives for a string outside the strict UTC
  forms of the ECMAScript date-time format handled by `isoParse` below (the
  implementation-defined fallback, `none` standing for `NaN`);
* `bcryptHash pw`: `bcrypt.hash(pw, 8)`; `bcryptCompare pw hash`:
  `bcrypt.compare(pw, hash)` on two strings;
* `jwtSign secret payload iat exp`: the compact token `jwt.sign` builds with a
  non-empty secret; `jwtVerify secret token clock`: the payload `jwt.verify`
  returns with a non-empty secret at clock time `clock` (seconds), `none` when it
  throws (malformed, bad signature, expired). -/
structure Host where
  toUpperCase : String → String
  toLowerCase : String → String
  dateParseHost : String → Option Int
  bcryptHash : String → String
  bcryptCompare : String → String → Bool
  jwtSign : String → TokenPayload → Nat → Nat → String
  jwtVerify : String → String → Nat → Option TokenPayload

/-! ## Data model (the mongoose schemas) -/

/-- A document of `userSchema`; `password` holds the bcrypt hash. -/
structure User where
  id : Nat
  email : String
  password : String
  name : String
  isFirstLogin : Bool
  createdAt : Nat
  deriving DecidableEq, Repr

/-- A document of `onboardingQuestionSchema`. -/
structure OnboardingQuestion where
  email : String
  responses : List (String × String)
  createdAt : Nat
  deriving DecidableEq, Repr

/-- A document of `journalSchema`; the optional paths may be absent. -/
structure Journal where
  email : String
  medicine : String
  intention : String
  experienceDate : String
  currentState : Option String
  postExperience : Option String
  createdAt : Nat
  deriving DecidableEq, Repr

/-- A document of `muscleSelectionSchema`. -/
structure MuscleSelection where
  email : String
  date : String
  selectedMuscles : List String
  createdAt : Nat
  deriving DecidableEq, Repr

/-- One level of a journey: a title and its question/answer pairs. -/
structure Level where
  title : String
  questionAnswers : List (String × String)
  deriving DecidableEq, Repr

/-- A document of `journeySchema`. -/
structure Journey where
  email : String
  date : String
  levels : List Level
  createdAt : Nat
  deriving DecidableEq, Repr

/-- A document of `expSchema`. -/
structure PostExperience where
  email : String
  date : String
  postExperience : Option String
  createdAt : Nat
  deriving DecidableEq, Repr

/-- A document of `audioSchema`. -/
structure Audio where
  email : String
  date : String
  audio : Option String
  createdAt : Nat
  deriving DecidableEq, Repr

/-- The document store: one list per collection, in insertion order, and the
next fresh document id. -/
structure Store where
  users : List User
  onboardingQuestions : List OnboardingQuestion
  journals : List Journal
  muscleSelections : List MuscleSelection
  journeys : List Journey
  postExperiences : List PostExperience
  audios : List Audio
  nextId : Nat
  deriving DecidableEq, Repr

/-- A store with no documents. -/
def Store.empty : Store :=
  { users := [], onboardingQuestions := [], journals := [], muscleSelections := [],
    journeys := [], postExperiences := [], audios := [], nextId := 0 }

/-! ## Requests and responses -/

/-- The object `auth` attaches as `req.user`. -/
structure Identity where
  userId : Nat
  email : String
  name : String
  deriving DecidableEq, Repr

/-- The `user` object of a register or login response. -/
structure UserSummary where
  id : Nat
  email : String
  name : String
  deriving DecidableEq, Repr

/-- An HTTP response: the status and the fields of the JSON body, `none` for a
field the body does not have. `α` is the type of the `data` field. -/
structure Response (α : Type) where
  status : Nat
  message : Option String
  token : Option String
  user : Option UserSummary
  data : Option α
  deriving DecidableEq, Repr

/-- The body `{ message }` with a status. -/
def Response.msg {α : Type} (status : Nat) (m : String) : Response α :=
  { status := status, message := some m, token := none, user := none, data := none }

/-- The body `{ message, data }` with a status. -/
def Response.msgData {α : Type} (status : Nat) (m : String) (d : α) : Response α :=
  { status := status, message := some m, token := none, user := none, data := some d }

/-- The body `{ token, user }` with a status. -/
def Response.tokenUser {α : Type} (status : Nat) (t : String) (u : UserSummary) : Response α :=
  { status := status, message := none, token := some t, user := some u, data := none }

/-- A string path with `required: true` passes validation when it is present
and not the empty string. -/
def requiredString : Option String → Option String
  | some s => if s = "" then none else some s
  | none => none

/-! ## Muscle selection -/

/-- The fixed vocabulary of `src/index.js`. -/
def validMuscles : List String :=
  [ "CHEST", "OBLIQUES", "ABS", "BICEPS", "TRICEPS", "NECK", "FRONT_DELTOIDS", "HEAD",
    "ABDUCTORS", "QUADRICEPS", "KNEES", "CALVES", "FOREARM", "TRAPEZIUS", "BACK_DELTOIDS",
    "UPPER_BACK", "LOWER_BACK", "GLUTEAL", "HAMSTRING", "LEFT_SOLEUS", "RIGHT_SOLEUS" ]

/-- The `selectedMuscles` field of the body: absent or falsy, a value that is
not an array, an array of strings, or an array with an element that is not a
string. -/
inductive MusclesField where
  | missing
  | notArray
  | array (tokens : List String)
  | arrayWithNonString
  deriving DecidableEq, Repr

/-- Body of `POST /api/save-muscles`. -/
structure SaveMusclesBody where
  selectedMuscles : MusclesField
  date : Option String
  deriving DecidableEq, Repr

/-- Embeds `muscle.trim().toUpperCase()`. -/
def cleanMuscle (h : Host) (muscle : String) : String :=
  h.toUpperCase (jsTrim muscle)

/-- The array `cleanedMuscles` of the handler. -/
def cleanedMuscles (h : Host) (selected : List String) : List String :=
  selected.map (cleanMuscle h)

/-- The array `invalidMuscles` of the handler. -/
def invalidMuscles (h : Host) (selected : List String) : List String :=
  (cleanedMuscles h selected).filter fun muscle => !validMuscles.contains muscle

/-- Validation of a new `MuscleSelection` document at `save()`: `email` and
`date` are required strings; an array path passes `required` also when empty. -/
def MuscleSelection.create (email : String) (date : Option String) (muscles : List String)
    (now : Nat) : Option MuscleSelection :=
  match requiredString (some email), requiredString date with
  | some e, some d => some { email := e, date := d, selectedMuscles := muscles, createdAt := now }
  | _, _ => none

/-- The handler of `POST /api/save-muscles`, run after `auth` has set
`req.user` to `user`. On an element that is not a string `muscle.trim` is not
a function: the `map` throws and the `catch` block answers 500. -/
def saveMuscles (h : Host) (user : Identity) (body : SaveMusclesBody) (now : Nat)
    (db : Store) : Response MuscleSelection × Store :=
  match body.selectedMuscles with
  | .missing => (Response.msg 400 "Selected muscles must be an array.", db)
  | .notArray => (Response.msg 400 "Selected muscles must be an array.", db)
  | .arrayWithNonString => (Response.msg 500 "Internal server error", db)
  | .array selected =>
    if (invalidMuscles h selected).length > 0 then
      (Response.msg 400 ("Invalid muscles: " ++ jsJoin ", " (invalidMuscles h selected)), db)
    else if user.email = "" then
      (Response.msg 400 "User not authenticated. Please log in.", db)
    else
      match MuscleSelection.create user.email body.date (cleanedMuscles h selected) now with
      | none => (Response.msg 500 "Internal server error", db)
      | some doc =>
        (Response.msgData 201 "Muscles saved successfully!" doc,
          { db with muscleSelections := db.muscleSelections ++ [doc] })

/-! ## Dates: the ECMAScript time-value arithmetic

A `Date` holds a time value: milliseconds since 1970-01-01T00:00:00Z, or `NaN`
(here `none`). The functions below follow the ECMAScript definitions of `Day`,
`DayFromYear`, `YearFromTime`, `MonthFromTime`, `DateFromTime` and
`Date.prototype.toISOString`. -/

/-- Milliseconds per day. -/
def msPerDay : Int := 86400000

/-- Embeds `Day(t)`: the day number of a time value. -/
def day (t : Int) : Int := t / msPerDay

/-- Embeds `TimeWithinDay(t)`. -/
def timeWithinDay (t : Int) : Int := t % msPerDay

/-- Embeds `DayFromYear(y)`: the day number of the first day of year `y`. -/
def dayFromYear (y : Int) : Int :=
  365 * (y - 1970) + (y - 1969) / 4 - (y - 1901) / 100 + (y - 1601) / 400

/-- The year a day number falls in: an estimate from the mean year length,
moved by one when it is off. -/
def yearFromDay (d : Int) : Int :=
  let y0 := 1970 + (400 * d) / 146097
  if d < dayFromYear y0 then y0 - 1
  else if dayFromYear (y0 + 1) ≤ d then y0 + 1
  else y0

/-- Embeds `YearFromTime(t)`. -/
def yearFromTime (t : Int) : Int := yearFromDay (day t)

/-- Whether `y` is a leap year. -/
def isLeapYear (y : Int) : Bool :=
  (y % 4 == 0 && y % 100 != 0) || y % 400 == 0

/-- Embeds `InLeapYear(t)`, as 0 or 1. -/
def leapDays (y : Int) : Int := if isLeapYear y then 1 else 0

/-- Embeds `DayWithinYear(t)`. -/
def dayWithinYear (t : Int) : Int := day t - dayFromYear (yearFromTime t)

/-- The day within the year on which month `m` (0 = January) starts, `l` being
`InLeapYear`. -/
def monthStart (m : Nat) (l : Int) : Int :=
  match m with
  | 0 => 0
  | 1 => 31
  | 2 => 59 + l
  | 3 => 90 + l
  | 4 => 120 + l
  | 5 => 151 + l
  | 6 => 181 + l
  | 7 => 212 + l
  | 8 => 243 + l
  | 9 => 273 + l
  | 10 => 304 + l
  | 11 => 334 + l
  | _ => 365 + l

/-- The month (0 = January) of day `d` within a year, `l` being `InLeapYear`. -/
def monthOfYearDay (d l : Int) : Nat :=
  if d < 31 then 0
  else if d < 59 + l then 1
  else if d < 90 + l then 2
  else if d < 120 + l then 3
  else if d < 151 + l then 4
  else if d < 181 + l then 5
  else if d < 212 + l then 6
  else if d < 243 + l then 7
  else if d < 273 + l then 8
  else if d < 304 + l then 9
  else if d < 334 + l then 10
  else 11

/-- Embeds `MonthFromTime(t)`, 0 = January. -/
def monthFromTime (t : Int) : Nat :=
  monthOfYearDay (dayWithinYear t) (leapDays (yearFromTime t))

/-- Embeds `DateFromTime(t)`: the day of the month, from 1. -/
def dateFromTime (t : Int) : Int :=
  dayWithinYear t - monthStart (monthFromTime t) (leapDays (yearFromTime t)) + 1

/-- The largest magnitude of a time value (`TimeClip`). -/
def maxTime : Int := 8640000000000000

/-- Embeds `TimeClip`: a time value out of range is `NaN`. -/
def timeClip (t : Int) : Option Int :=
  if -maxTime ≤ t ∧ t ≤ maxTime then some t else none

/-- The decimal digit `d % 10` as a character. -/
def digitChar (d : Nat) : Char := Char.ofNat (48 + d % 10)

/-- The last `w` decimal digits of `n`, most significant first: `n` written
with `w` digits, zero-padded, when `n < 10 ^ w`. -/
def padDigits : Nat → Nat → List Char
  | 0, _ => []
  | w + 1, n => padDigits w (n / 10) ++ [digitChar n]

/-- The year of `toISOString`: four digits for the years 0 to 9999, a sign and
six digits otherwise. -/
def isoYear (y : Int) : List Char :=
  if 0 ≤ y ∧ y ≤ 9999 then padDigits 4 y.toNat
  else if 0 ≤ y then '+' :: padDigits 6 y.toNat
  else '-' :: padDigits 6 (-y).toNat

/-- The date part `YYYY-MM-DD` of `toISOString`. -/
def isoDateChars (t : Int) : List Char :=
  isoYear (yearFromTime t) ++ '-' :: padDigits 2 (monthFromTime t + 1) ++
    '-' :: padDigits 2 (dateFromTime t).toNat

/-- The time part `HH:mm:ss.sssZ` of `toISOString`. -/
def isoTimeChars (t : Int) : List Char :=
  let ms := (timeWithinDay t).toNat
  padDigits 2 (ms / 3600000) ++ ':' :: padDigits 2 (ms / 60000 % 60) ++
    ':' :: padDigits 2 (ms / 1000 % 60) ++ '.' :: padDigits 3 (ms % 1000) ++ ['Z']

/-- Embeds `date.toISOString()` for a valid date. -/
def toISOString (t : Int) : String :=
  ⟨isoDateChars t ++ 'T' :: isoTimeChars t⟩

/-- Embeds `s.split("T")[0]`: the text before the first `T`. -/
def splitTHead (s : String) : String :=
  ⟨s.data.takeWhile fun c => c != 'T'⟩

/-! ### `Date.parse` on the strict UTC forms -/

/-- The value of a decimal digit. -/
def digitValue (c : Char) : Option Nat :=
  if 48 ≤ c.toNat ∧ c.toNat ≤ 57 then some (c.toNat - 48) else none

/-- Reads exactly `n` decimal digits, with `acc` the value read so far. -/
def readDigits : Nat → Nat → List Char → Option (Nat × List Char)
  | 0, acc, cs => some (acc, cs)
  | _ + 1, _, [] => none
  | n + 1, acc, c :: cs =>
    match digitValue c with
    | some d => readDigits n (10 * acc + d) cs
    | none => none

/-- Reads the character `c`. -/
def readChar (c : Char) : List Char → Option (List Char)
  | [] => none
  | d :: cs => if d = c then some cs else none

/-- The year of the date-time format: `YYYY`, or an expanded year `+YYYYYY` or
`-YYYYYY` (`-000000` is not a year). -/
def readYear : List Char → Option (Int × List Char)
  | [] => none
  | c :: cs =>
    if c = '+' then
      match readDigits 6 0 cs with
      | some (y, rest) => some ((y : Int), rest)
      | none => none
    else if c = '-' then
      match readDigits 6 0 cs with
      | some (y, rest) => if y = 0 then none else some (-(y : Int), rest)
      | none => none
    else
      match readDigits 4 0 (c :: cs) with
      | some (y, rest) => some ((y : Int), rest)
      | none => none

/-- The number of days of month `m` (1 = January) of year `y`. -/
def daysInMonth (y : Int) (m : Nat) : Nat :=
  (monthStart m (leapDays y) - monthStart (m - 1) (leapDays y)).toNat

/-- The time of day `THH:mm:ss` or `THH:mm:ss.sss` followed by `Z`, in
milliseconds; the empty rest is the date-only form (midnight UTC). -/
def readTime : List Char → Option Int
  | [] => some 0
  | cs =>
    match readChar 'T' cs with
    | none => none
    | some cs =>
    match readDigits 2 0 cs with
    | none => none
    | some (hh, cs) =>
    match readChar ':' cs with
    | none => none
    | some cs =>
    match readDigits 2 0 cs with
    | none => none
    | some (mm, cs) =>
    match readChar ':' cs with
    | none => none
    | some cs =>
    match readDigits 2 0 cs with
    | none => none
    | some (ss, cs) =>
      if hh ≤ 23 ∧ mm ≤ 59 ∧ ss ≤ 59 then
        let base : Int := hh * 3600000 + mm * 60000 + ss * 1000
        if cs = ['Z'] then some base
        else
          match readChar '.' cs with
          | none => none
          | some cs =>
          match readDigits 3 0 cs with
          | none => none
          | some (ms, cs) => if cs = ['Z'] then some (base + ms) else none
      else none

/-- Embeds `Date.parse` on the strict UTC forms of the ECMAScript date-time format,
`YYYY-MM-DD`, `YYYY-MM-DDTHH:mm:ssZ` and `YYYY-MM-DDTHH:mm:ss.sssZ` (also with
an expanded year), with every field in range: the time value the language
specification fixes for them. `none` for any other string. -/
def isoParse (s : String) : Option Int :=
  match readYear s.data with
  | none => none
  | some (y, cs) =>
  match readChar '-' cs with
  | none => none
  | some cs =>
  match readDigits 2 0 cs with
  | none => none
  | some (m, cs) =>
  match readChar '-' cs with
  | none => none
  | some cs =>
  match readDigits 2 0 cs with
  | none => none
  | some (d, cs) =>
    if 1 ≤ m ∧ m ≤ 12 ∧ 1 ≤ d ∧ d ≤ daysInMonth y m then
      match readTime cs with
      | none => none
      | some ms =>
        timeClip ((dayFromYear y + monthStart (m - 1) (leapDays y) + (d - 1 : Nat)) * msPerDay + ms)
    else none

/-- Embeds `new Date(s).getTime()` for a string `s`: the strict forms are parsed as the
language specification says, any other string as the host does; `none` is
`NaN`, an invalid date. -/
def dateParse (h : Host) (s : String) : Option Int :=
  match isoParse s with
  | some t => some t
  | none =>
    match h.dateParseHost s with
    | some t => timeClip t
    | none => none

/-! ## Journal -/

/-- The `journalEntry` object of the body; each field is absent or a string. -/
structure JournalEntry where
  medicine : Option String
  intention : Option String
  experienceDate : Option String
  currentState : Option String
  postExperience : Option String
  deriving DecidableEq, Repr

/-- Body of `POST /api/journal`; `journalEntry` may be absent. -/
structure JournalBody where
  journalEntry : Option JournalEntry
  deriving DecidableEq, Repr

/-- A field that is a string or absent is truthy when it is a non-empty
string; the result is that string. -/
def truthyString : Option String → Option String
  | some s => if s = "" then none else some s
  | none => none

/-- Validation of a new `Journal` document at `save()`: `email`, `medicine`,
`intention` and `experienceDate` are required strings. -/
def Journal.create (email : String) (medicine intention experienceDate : String)
    (currentState postExperience : Option String) (now : Nat) : Option Journal :=
  match requiredString (some email), requiredString (some medicine),
      requiredString (some intention), requiredString (some experienceDate) with
  | some e, some m, some i, some d =>
    some { email := e, medicine := m, intention := i, experienceDate := d,
           currentState := currentState, postExperience := postExperience, createdAt := now }
  | _, _, _, _ => none

/-- Embeds `date.toISOString().split("T")[0]`. -/
def formattedDate (t : Int) : String := splitTHead (toISOString t)

/-- The handler of `POST /api/journal`, run after `auth` has set `req.user` to
`user`. Destructuring an absent `journalEntry` throws, which the handler's
`catch` turns into the 500 response. -/
def journal (h : Host) (user : Identity) (body : JournalBody) (now : Nat) (db : Store) :
    Response Journal × Store :=
  match body.journalEntry with
  | none => (Response.msg 500 "Internal server error", db)
  | some entry =>
    match truthyString entry.medicine, truthyString entry.intention,
        truthyString entry.experienceDate with
    | some medicine, some intention, some experienceDate =>
      match dateParse h experienceDate with
      | none => (Response.msg 400 "Invalid experience date.", db)
      | some t =>
        match Journal.create user.email medicine intention (formattedDate t)
            entry.currentState entry.postExperience now with
        | none => (Response.msg 500 "Internal server error", db)
        | some doc =>
          (Response.msgData 201 "Journal entry saved successfully!" doc,
            { db with journals := db.journals ++ [doc] })
    | _, _, _ => (Response.msg 400 "All fields are required.", db)

/-- The shape `YYYY-MM-DD`: ten characters, digits but for the two hyphens. -/
def isYMD (s : String) : Bool :=
  match s.data with
  | [y1, y2, y3, y4, h1, m1, m2, h2, d1, d2] =>
    y1.isDigit && y2.isDigit && y3.isDigit && y4.isDigit && h1 == '-' &&
    m1.isDigit && m2.isDigit && h2 == '-' && d1.isDigit && d2.isDigit
  | _ => false

/-! ## Credentials: the `auth` middleware, register and login -/

/-- The process configuration read by the server: `process.env.JWT_SECRET`,
`none` when the variable is not set. -/
structure Env where
  jwtSecret : Option String
  deriving DecidableEq, Repr

/-- Whether `pat` starts the list `cs`. -/
def startsWith : List Char → List Char → Bool
  | [], _ => true
  | _ :: _, [] => false
  | p :: pat, c :: cs => p == c && startsWith pat cs

/-- Embeds `s.replace(pat, "")` on characters, for a non-empty `pat`: the first
occurrence of `pat` is removed. -/
def removeFirst (pat : List Char) : List Char → List Char
  | [] => []
  | c :: cs => if startsWith pat (c :: cs) then (c :: cs).drop pat.length
      else c :: removeFirst pat cs

/-- Embeds `req.header("Authorization")?.replace("Bearer ", "")`: `none` when the
request has no such header. -/
def bearerToken (header : Option String) : Option String :=
  header.map fun v => ⟨removeFirst "Bearer ".data v.data⟩

/-- Embeds `jwt.verify(token, process.env.JWT_SECRET)`: `none` when it throws, which it
does for every token when the secret is not set or empty. `now` is the clock in
milliseconds. -/
def jwtVerifyEnv (h : Host) (env : Env) (token : String) (now : Nat) : Option TokenPayload :=
  match env.jwtSecret with
  | none => none
  | some secret => if secret = "" then none else h.jwtVerify secret token (now / 1000)

/-- Embeds `jwt.sign(payload, secret, { expiresIn: "1d" })` with a secret that is set
and not empty: issued at the clock's second, expiring 86400 seconds later. -/
def jwtSignDay (h : Host) (secret : String) (payload : TokenPayload) (now : Nat) : String :=
  h.jwtSign secret payload (now / 1000) (now / 1000 + 86400)

/-- Embeds `User.findById(id)`. -/
def findById (db : Store) (id : Nat) : Option User :=
  db.users.find? fun u => u.id == id

/-- What the middleware does with a request: it sends a response, or it calls
`next()` with `req.user` set. -/
inductive AuthOutcome (α : Type) where
  | respond (r : Response α)
  | next (user : Identity)
  deriving DecidableEq, Repr

/-- The `auth` middleware. Any exception of `jwt.verify` is caught and
answered with the second 401. -/
def auth {α : Type} (h : Host) (env : Env) (db : Store) (now : Nat) (header : Option String) :
    AuthOutcome α :=
  match bearerToken header with
  | none => .respond (Response.msg 401 "No auth token found. Please log in.")
  | some token =>
    if token = "" then .respond (Response.msg 401 "No auth token found. Please log in.")
    else
      match jwtVerifyEnv h env token now with
      | none => .respond (Response.msg 401 "Invalid or expired token. Please log in again.")
      | some decoded =>
        match findById db decoded.userId with
        | none => .respond (Response.msg 404 "User not found")
        | some user => .next { userId := user.id, email := user.email, name := user.name }

/-- A bearer-protected route `app.post(path, auth, handler)`: the handler runs
only when `auth` calls `next()`. -/
def protect {α : Type} (handler : Identity → Store → Response α × Store) (h : Host) (env : Env)
    (now : Nat) (header : Option String) (db : Store) : Response α × Store :=
  match auth h env db now header with
  | .respond r => (r, db)
  | .next user => handler user db

/-- The payload a request's bearer token verifies to: `none` when the header is
missing, the token text is empty, or `jwt.verify` throws (malformed token,
invalid signature, expired, or no secret configured). -/
def verifiedPayload (h : Host) (env : Env) (now : Nat) (header : Option String) :
    Option TokenPayload :=
  match bearerToken header with
  | none => none
  | some token => if token = "" then none else jwtVerifyEnv h env token now

/-- The setters of the `email` path of `userSchema` (`lowercase: true`,
`trim: true`, applied in the order the schema declares them), which mongoose
runs on a value assigned to the path and on a value the path is queried with. -/
def normEmail (h : Host) (email : String) : String :=
  jsTrim (h.toLowerCase email)

/-- Embeds `User.findOne({ email })`: the first user whose stored email is the query
value after the path's setters. -/
def findOneByEmail (h : Host) (db : Store) (email : String) : Option User :=
  db.users.find? fun u => u.email == normEmail h email

/-- The `length` of a JavaScript string: its number of UTF-16 code units. -/
def jsLength (s : String) : Nat :=
  (s.data.map fun c => if c.toNat < 0x10000 then 1 else 2).sum

/-- Body of `POST /auth/register`. -/
structure RegisterBody where
  email : String
  password : Option String
  name : Option String
  deriving DecidableEq, Repr

/-- Embeds `new User({ email, password, name })` followed by `save()`: the setters of
`email`, validation (`email`, `password`, `name` required, `password` of at
least 6 code units), the unique index on `email`, and the `pre("save")` hook
that replaces the password by its hash. `none` when `save()` rejects. -/
def User.create (h : Host) (db : Store) (body : RegisterBody) (now : Nat) : Option User :=
  match requiredString (some (normEmail h body.email)), requiredString body.password,
      requiredString body.name with
  | some email, some password, some name =>
    if jsLength password < 6 then none
    else if db.users.any (fun u => u.email == email) then none
    else some { id := db.nextId, email := email, password := h.bcryptHash password,
                name := name, isFirstLogin := false, createdAt := now }
  | _, _, _ => none

/-- The secret `register` signs with: `process.env.JWT_SECRET || "your-secret-key"`. -/
def registerSecret (env : Env) : String :=
  match env.jwtSecret with
  | none => "your-secret-key"
  | some secret => if secret = "" then "your-secret-key" else secret

/-- The handler of `POST /auth/register`. -/
def register (h : Host) (env : Env) (body : RegisterBody) (now : Nat) (db : Store) :
    Response Unit × Store :=
  match findOneByEmail h db body.email with
  | some _ => (Response.msg 400 "User already exists", db)
  | none =>
    match User.create h db body now with
    | none => (Response.msg 500 "Error registering user. Please try again later.", db)
    | some user =>
      (Response.tokenUser 201
          (jwtSignDay h (registerSecret env) { userId := user.id, email := user.email } now)
          { id := user.id, email := user.email, name := user.name },
        { db with users := db.users ++ [user], nextId := db.nextId + 1 })

/-- Body of `POST /auth/login`; bcrypt rejects a password that is not a string. -/
structure LoginBody where
  email : String
  password : Option String
  deriving DecidableEq, Repr

/-- The handler of `POST /auth/login`; it does not write to the store.
`jwt.sign` throws when `process.env.JWT_SECRET` is not set or empty. -/
def login (h : Host) (env : Env) (body : LoginBody) (now : Nat) (db : Store) : Response Unit :=
  match findOneByEmail h db body.email with
  | none => Response.msg 401 "Invalid email or password!"
  | some user =>
    match body.password with
    | none => Response.msg 500 "Error logging in. Please try again later."
    | some password =>
      if h.bcryptCompare password user.password = false then
        Response.msg 401 "Invalid email or password!"
      else
        match env.jwtSecret with
        | none => Response.msg 500 "Error logging in. Please try again later."
        | some secret =>
          if secret = "" then Response.msg 500 "Error logging in. Please try again later."
          else
            Response.tokenUser 200
              (jwtSignDay h secret { userId := user.id, email := user.email } now)
              { id := user.id, email := user.email, name := user.name }

/-! ## A concrete host -/

/-- A toy token: the secret, the user id on 10 digits, the expiry on 12 digits
and the email, separated by dots. -/
def demoSign (secret : String) (p : TokenPayload) (_iat exp : Nat) : String :=
  ⟨secret.data ++ '.' :: padDigits 10 p.userId ++ '.' :: padDigits 12 exp ++ '.' :: p.email.data⟩

/-- Reads a toy token signed with `secret`. -/
def demoVerify (secret token : String) (clock : Nat) : Option TokenPayload :=
  if startsWith (secret.data ++ ['.']) token.data then
    match readDigits 10 0 (token.data.drop (secret.data.length + 1)) with
    | none => none
    | some (uid, cs) =>
    match readChar '.' cs with
    | none => none
    | some cs =>
    match readDigits 12 0 cs with
    | none => none
    | some (exp, cs) =>
    match readChar '.' cs with
    | none => none
    | some cs => if clock < exp then some { userId := uid, email := ⟨cs⟩ } else none
  else none

/-- A host with ASCII case mapping, a date parser that knows no form beyond the
strict ones, and toy bcrypt and jsonwebtoken libraries: enough to run the
handlers on concrete ASCII requests. -/
def demoHost : Host :=
  { toUpperCase := asciiUpper
    toLowerCase := asciiLower
    dateParseHost := fun _ => none
    bcryptHash := fun pw => "hash:" ++ pw
    bcryptCompare := fun pw hash => hash == "hash:" ++ pw
    jwtSign := demoSign
    jwtVerify := demoVerify }

/-! ## The summarization client and `saveAudio` -/

/-- One turn of the transcript `conversationHistory`; `content` is `none` when
the value pushed is `undefined` or `null`. -/
structure Turn where
  role : String
  content : Option String
  deriving DecidableEq, Repr

/-- The `message` object of a choice; its `content` may be null or absent. -/
structure ChatMessage where
  content : Option String
  deriving DecidableEq, Repr

/-- One element of `choices`; its `message` may be absent. -/
structure ChatChoice where
  message : Option ChatMessage
  deriving DecidableEq, Repr

/-- How the call `axios.post(...)` to the chat-completion endpoint ends: the
promise rejects (a transport error, or an HTTP status outside 2xx) with some
reason, or it resolves with a body whose `choices` is absent or a list. -/
inductive ApiResult where
  | rejected (reason : String)
  | resolved (choices : Option (List ChatChoice))
  deriving DecidableEq, Repr

/-- The external endpoint: what the call made with a given `messages` array
ends in. -/
abbrev ChatApi := List Turn → ApiResult

/-- The evaluation of `response.data.choices[0].message.content`: `none` when
it throws a `TypeError` (no `choices`, no first choice, or no `message`),
otherwise the value of `content`. -/
def readReply : Option (List ChatChoice) → Option (Option String)
  | none => none
  | some [] => none
  | some (choice :: _) =>
    match choice.message with
    | none => none
    | some message => some message.content

/-- What the body of the `try` block of `chatWithGPT` gets from the call:
`none` when the call rejects or reading the reply throws, so that control goes
to the `catch` block. -/
def apiReply : ApiResult → Option (Option String)
  | .rejected _ => none
  | .resolved choices => readReply choices

/-- The string `chatWithGPT` returns from its `catch` block. -/
def apology : String :=
  "I'm sorry, but there was an error processing your request. Please try again."

/-- The system turn `conversationHistory` starts with; its prompt text is a
parameter. -/
def initialHistory (systemPrompt : String) : List Turn :=
  [{ role := "system", content := some systemPrompt }]

/-- The turn `{ role: "user", content: prompt }`. -/
def userTurn (prompt : Option String) : Turn := { role := "user", content := prompt }

/-- The turn `{ role: "assistant", content: assistantResponse }`. -/
def assistantTurn (assistantResponse : Option String) : Turn :=
  { role := "assistant", content := assistantResponse }

/-- The part of `chatWithGPT(prompt)` before its `await`: the user turn is
pushed on the shared transcript. The result is the transcript after, which is
also the `messages` array of the request. -/
def chatStart (prompt : Option String) (history : List Turn) : List Turn :=
  history ++ [userTurn prompt]

/-- The part of `chatWithGPT` after its `await`, when the request has ended in
`result` and the shared transcript is `history` by then: the value returned and
the transcript after. A reply that was read is pushed as the assistant turn;
the `catch` block pushes nothing. -/
def chatFinish (result : ApiResult) (history : List Turn) : Option String × List Turn :=
  match apiReply result with
  | none => (some apology, history)
  | some assistantResponse => (assistantResponse, history ++ [assistantTurn assistantResponse])

/-- What a call of `chatWithGPT` does to the shared transcript at one go: it
starts (runs up to its `await`), or, being in flight, it finishes (its request
has ended in `result` and it runs to its `return`). -/
inductive ChatEvent where
  | start (prompt : Option String)
  | finish (result : ApiResult)
  deriving DecidableEq, Repr

/-- The transcript after one event. -/
def chatStep (history : List Turn) : ChatEvent → List Turn
  | .start prompt => chatStart prompt history
  | .finish result => (chatFinish result history).2

/-- The transcript after a sequence of events, in the order they happen. -/
def chatRun (events : List ChatEvent) (history : List Turn) : List Turn :=
  events.foldl chatStep history

/-- Embeds `chatWithGPT(prompt)` called on the transcript `history`: the value
returned and the shared transcript at the return. `during` is what the other
calls do while this one awaits its response; it is empty when no other call is
in flight. -/
def chatWithGPT (api : ChatApi) (prompt : Option String) (history : List Turn)
    (during : List ChatEvent) : Option String × List Turn :=
  let sent := chatStart prompt history
  chatFinish (api sent) (chatRun during sent)

/-- The turn an event pushes, if any. -/
def pushedTurn : ChatEvent → Option Turn
  | .start prompt => some (userTurn prompt)
  | .finish result => (apiReply result).map assistantTurn

/-- The turns a sequence of events pushes, in order. -/
def pushedTurns (events : List ChatEvent) : List Turn :=
  events.filterMap pushedTurn

/-- The number of calls in flight after a sequence of events that begins with
`k` calls in flight; `none` when some event finishes a call while none is in
flight, which no execution does. -/
def inFlight : List ChatEvent → Nat → Option Nat
  | [], k => some k
  | .start _ :: rest, k => inFlight rest (k + 1)
  | .finish _ :: _, 0 => none
  | .finish _ :: rest, k + 1 => inFlight rest k

/-- The prompts of the calls a sequence of events starts. -/
def startedPrompts : List ChatEvent → List (Option String)
  | [] => []
  | .start prompt :: rest => prompt :: startedPrompts rest
  | .finish _ :: rest => startedPrompts rest

/-- The results of the calls a sequence of events finishes. -/
def finishedResults : List ChatEvent → List ApiResult
  | [] => []
  | .start _ :: rest => finishedResults rest
  | .finish result :: rest => result :: finishedResults rest

/-- Body of `POST /api/saveAudio`. -/
structure SaveAudioBody where
  postExperience : Option String
  date : Option String
  deriving DecidableEq, Repr

/-- Validation of a new `Audio` document at `save()`: `email` and `date` are
required strings, `audio` is optional. -/
def Audio.create (email : String) (date : Option String) (audio : Option String) (now : Nat) :
    Option Audio :=
  match requiredString (some email), requiredString date with
  | some e, some d => some { email := e, date := d, audio := audio, createdAt := now }
  | _, _ => none

/-- The handler of `POST /api/saveAudio`, run after `auth` has set `req.user`
to `user`: the response, the store and the transcript after the request.
`during` is what other calls of `chatWithGPT` do while this request awaits the
summary. -/
def saveAudio (api : ChatApi) (user : Identity) (body : SaveAudioBody) (now : Nat)
    (db : Store) (history : List Turn) (during : List ChatEvent) :
    Response Audio × Store × List Turn :=
  let response := chatWithGPT api body.postExperience history during
  match Audio.create user.email body.date response.1 now with
  | none => (Response.msg 500 "Internal server error", db, response.2)
  | some doc =>
    (Response.msgData 201 "Audio entry saved successfully!" doc,
      { db with audios := db.audios ++ [doc] }, response.2)

/-! ## Profile aggregation -/

/-- A user document read with `.select("-password")`: every path but the
password. -/
structure UserView where
  id : Nat
  email : String
  name : String
  isFirstLogin : Bool
  createdAt : Nat
  deriving DecidableEq, Repr

/-- The view of a user without its password. -/
def User.view (u : User) : UserView :=
  { id := u.id, email := u.email, name := u.name, isFirstLogin := u.isFirstLogin,
    createdAt := u.createdAt }

/-- The object `profileData` of the handler; a latest-record field is `none`
when `findOne` resolved to `null`. -/
structure ProfileData where
  user : UserView
  dates : List String
  journalAllData : List Journal
  onboardingQuestion : Option OnboardingQuestion
  journals : Option Journal
  muscleSelections : Option MuscleSelection
  journeys : Option Journey
  postExperiences : Option PostExperience
  audios : Option Audio
  muscleSelectionsAll : List MuscleSelection
  journeysAll : List Journey
  postExperiencesAll : List PostExperience
  audiosAll : List Audio
  deriving DecidableEq, Repr

/-- Body of `POST /api/profile`. -/
structure ProfileBody where
  email : Option String
  deriving DecidableEq, Repr

/-- Embeds `Model.find({ email })` on a collection whose `email` path has no
setter: the documents with that email, in insertion order. -/
def findByEmail {α : Type} (emailOf : α → String) (docs : List α) (email : String) : List α :=
  docs.filter fun d => emailOf d == email

/-- The first document of a list sorted by `createdAt` descending: a document
with the largest `createdAt`, the first inserted among equals (the store leaves
the order of equals open). `none` on the empty list. -/
def latestOf {α : Type} (createdAt : α → Nat) : List α → Option α
  | [] => none
  | d :: rest =>
    match latestOf createdAt rest with
    | none => some d
    | some later => if createdAt d < createdAt later then some later else some d

/-- Embeds `Model.findOne({ email }).sort({ createdAt: -1 })`: `none` is `null`. -/
def findLatestByEmail {α : Type} (emailOf : α → String) (createdAt : α → Nat) (docs : List α)
    (email : String) : Option α :=
  latestOf createdAt (findByEmail emailOf docs email)

/-- The handler of `POST /api/profile`, run after `auth`; it reads `email` from
the body, not from `req.user`, and does not write to the store. The user is
looked up through the setters of `userSchema`; the other collections are
queried with the email as sent. -/
def profile (h : Host) (body : ProfileBody) (db : Store) : Response ProfileData :=
  match truthyString body.email with
  | none => Response.msg 400 "Email is required"
  | some email =>
    match findOneByEmail h db email with
    | none => Response.msg 404 "User not found"
    | some user =>
      let journalAllData := findByEmail Journal.email db.journals email
      Response.msgData 200 "Profile data fetched successfully"
        { user := user.view
          dates := journalAllData.map fun journal => journal.experienceDate
          journalAllData := journalAllData
          onboardingQuestion :=
            findLatestByEmail OnboardingQuestion.email OnboardingQuestion.createdAt
              db.onboardingQuestions email
          journals := findLatestByEmail Journal.email Journal.createdAt db.journals email
          muscleSelections :=
            findLatestByEmail MuscleSelection.email MuscleSelection.createdAt
              db.muscleSelections email
          journeys := findLatestByEmail Journey.email Journey.createdAt db.journeys email
          postExperiences :=
            findLatestByEmail PostExperience.email PostExperience.createdAt
              db.postExperiences email
          audios := findLatestByEmail Audio.email Audio.createdAt db.audios email
          muscleSelectionsAll := findByEmail MuscleSelection.email db.muscleSelections email
          journeysAll := findByEmail Journey.email db.journeys email
          postExperiencesAll := findByEmail PostExperience.email db.postExperiences email
          audiosAll := findByEmail Audio.email db.audios email }

/-! ## Invariants and concrete inputs -/

/-- Every token of every stored muscle-selection record is in the vocabulary. -/
def Store.musclesInVocabulary (db : Store) : Prop :=
  ∀ r ∈ db.muscleSelections, ∀ t ∈ r.selectedMuscles, t ∈ validMuscles

/-- The store after `ann@example.com` has registered on an empty store. -/
def annStore : Store :=
  (register demoHost ⟨some "k"⟩ ⟨"ann@example.com", some "secret1", some "Ann"⟩ 5 Store.empty).2

/-- The store `annStore` after Ann has saved two journal entries and one muscle
selection. -/
def annRecordsStore : Store :=
  { annStore with
    journals :=
      [ ⟨"ann@example.com", "psilocybin", "clarity", "2024-03-05", none, none, 10⟩,
        ⟨"ann@example.com", "ayahuasca", "healing", "2024-02-01", some "calm", none, 20⟩ ]
    muscleSelections := [⟨"ann@example.com", "2024-03-05", ["CHEST", "ABS"], 30⟩] }

/-- An endpoint that answers every call with the number of turns it was sent,
written on two digits. -/
def countingApi : ChatApi := fun sent =>
  .resolved (some [{ message := some { content := some ⟨padDigits 2 sent.length⟩ } }])

/-- An endpoint that is down: every call is rejected. -/
def downApi : ChatApi := fun _ => .rejected "connect ECONNREFUSED"

/-- An endpoint that answers every call with a message whose `content` is
`null`. -/
def nullContentApi : ChatApi := fun _ =>
  .resolved (some [{ message := some { content := none } }])

/-- The invariants of the users collection: every stored email is set (the
`email` path is required), document ids are below the next fresh id, and no two
users share an id. -/
structure Store.usersValid (db : Store) : Prop where
  emailSet : ∀ u ∈ db.users, u.email ≠ ""
  idFresh : ∀ u ∈ db.users, u.id < db.nextId
  idUnique : db.users.Pairwise fun u v => u.id ≠ v.id

/-! ## Theorems: muscle selection -/

theorem mem_invalidMuscles (h : Host) (selected : List String) (t : String) :
    t ∈ invalidMuscles h selected ↔ t ∈ cleanedMuscles h selected ∧ t ∉ validMuscles := by
  simp [invalidMuscles]

theorem invalidMuscles_nonempty_iff (h : Host) (selected : List String) :
    (invalidMuscles h selected).length > 0 ↔
      ∃ m ∈ selected, cleanMuscle h m ∉ validMuscles := by
  show 0 < (invalidMuscles h selected).length ↔ _
  rw [List.length_pos_iff_exists_mem]
  constructor
  · rintro ⟨t, ht⟩
    rw [mem_invalidMuscles] at ht
    obtain ⟨m, hm, rfl⟩ := List.mem_map.mp ht.1
    exact ⟨m, hm, ht.2⟩
  · rintro ⟨m, hm, hbad⟩
    exact ⟨cleanMuscle h m, (mem_invalidMuscles h selected _).mpr
      ⟨List.mem_map.mpr ⟨m, hm, rfl⟩, hbad⟩⟩

theorem saveMuscles_invalid (h : Host) (user : Identity) (date : Option String) (now : Nat)
    (db : Store) (selected : List String) (hbad : (invalidMuscles h selected).length > 0) :
    saveMuscles h user ⟨.array selected, date⟩ now db =
      (Response.msg 400 ("Invalid muscles: " ++ jsJoin ", " (invalidMuscles h selected)), db) := by
  simp only [saveMuscles, if_pos hbad]

theorem saveMuscles_valid_status (h : Host) (user : Identity) (date : Option String) (now : Nat)
    (db : Store) (selected : List String) (hgood : ¬ (invalidMuscles h selected).length > 0)
    (hauth : user.email ≠ "") :
    (saveMuscles h user ⟨.array selected, date⟩ now db).1.status ≠ 400 := by
  simp only [saveMuscles, if_neg hgood, if_neg hauth]
  cases MuscleSelection.create user.email date (cleanedMuscles h selected) now <;>
    simp [Response.msg, Response.msgData]

/-- C1. For an authenticated request (`req.user.email` is set) whose
`selectedMuscles` is an array of strings, the response is 400 exactly when some token,
trimmed and upper-cased, is outside `validMuscles`; then the message is
`"Invalid muscles: "` followed by all the cleaned tokens outside the vocabulary,
in input order, joined by `", "`, every token named is outside the vocabulary,
the body has no `data` and the store is unchanged. -/
theorem saveMuscles_badRequest_iff (h : Host) (user : Identity) (date : Option String)
    (now : Nat) (db : Store) (selected : List String) (hauth : user.email ≠ "") :
    ((saveMuscles h user ⟨.array selected, date⟩ now db).1.status = 400 ↔
        ∃ m ∈ selected, cleanMuscle h m ∉ validMuscles) ∧
    ((∃ m ∈ selected, cleanMuscle h m ∉ validMuscles) →
      (saveMuscles h user ⟨.array selected, date⟩ now db).1.message =
          some ("Invalid muscles: " ++ jsJoin ", "
            ((selected.map (cleanMuscle h)).filter fun t => decide (t ∉ validMuscles))) ∧
      (∀ t, t ∈ (selected.map (cleanMuscle h)).filter (fun t => decide (t ∉ validMuscles)) ↔
          t ∈ selected.map (cleanMuscle h) ∧ t ∉ validMuscles) ∧
      (saveMuscles h user ⟨.array selected, date⟩ now db).1.data = none ∧
      (saveMuscles h user ⟨.array selected, date⟩ now db).2 = db) := by
  have hfilter : (selected.map (cleanMuscle h)).filter (fun t => decide (t ∉ validMuscles)) =
      invalidMuscles h selected := by
    simp [invalidMuscles, cleanedMuscles]
  constructor
  · constructor
    · intro hst
      by_contra hno
      have hgood : ¬ (invalidMuscles h selected).length > 0 := by
        rw [invalidMuscles_nonempty_iff]; exact hno
      exact saveMuscles_valid_status h user date now db selected hgood hauth hst
    · intro hex
      rw [saveMuscles_invalid h user date now db selected
        ((invalidMuscles_nonempty_iff h selected).mpr hex)]
      rfl
  · intro hex
    rw [saveMuscles_invalid h user date now db selected
      ((invalidMuscles_nonempty_iff h selected).mpr hex), hfilter]
    refine ⟨rfl, ?_, rfl, rfl⟩
    intro t
    exact mem_invalidMuscles h selected t

/-- C1, at the request `["chest", "INVALID_MUSCLE"]`: the response is 400 and
its message names exactly `INVALID_MUSCLE`. -/
theorem saveMuscles_badRequest_iff_witness :
    (saveMuscles demoHost ⟨1, "a@b.c", "Ann"⟩ ⟨.array ["chest", "INVALID_MUSCLE"], some "2024-03-05"⟩
        7 Store.empty).1.status = 400 ∧
    (saveMuscles demoHost ⟨1, "a@b.c", "Ann"⟩ ⟨.array ["chest", "INVALID_MUSCLE"], some "2024-03-05"⟩
        7 Store.empty).1.message = some "Invalid muscles: INVALID_MUSCLE" ∧
    (saveMuscles demoHost ⟨1, "a@b.c", "Ann"⟩ ⟨.array ["chest", "INVALID_MUSCLE"], some "2024-03-05"⟩
        7 Store.empty).2 = Store.empty := by
  have hauth : (⟨1, "a@b.c", "Ann"⟩ : Identity).email ≠ "" := by decide
  have hex : ∃ m ∈ ["chest", "INVALID_MUSCLE"], cleanMuscle demoHost m ∉ validMuscles :=
    ⟨"INVALID_MUSCLE", by decide, by decide⟩
  have key := saveMuscles_badRequest_iff demoHost ⟨1, "a@b.c", "Ann"⟩ (some "2024-03-05") 7
    Store.empty ["chest", "INVALID_MUSCLE"] hauth
  refine ⟨key.1.mpr hex, ?_, (key.2 hex).2.2.2⟩
  rw [(key.2 hex).1]
  decide

theorem MuscleSelection.create_selectedMuscles {email : String} {date : Option String}
    {muscles : List String} {now : Nat} {doc : MuscleSelection}
    (hdoc : MuscleSelection.create email date muscles now = some doc) :
    doc.selectedMuscles = muscles := by
  unfold MuscleSelection.create at hdoc
  split at hdoc
  · cases hdoc; rfl
  · cases hdoc

theorem cleaned_in_vocabulary (h : Host) (selected : List String)
    (hgood : ¬ (invalidMuscles h selected).length > 0) :
    ∀ t ∈ cleanedMuscles h selected, t ∈ validMuscles := by
  intro t ht
  by_contra hbad
  exact hgood (List.length_pos_of_mem ((mem_invalidMuscles h selected t).mpr ⟨ht, hbad⟩))

/-- C2. When `POST /api/save-muscles` answers 201, the body's `selectedMuscles`
was an array, exactly one record was appended to the collection, it is the
`data` of the response, its `selectedMuscles` is the input with every token
trimmed and upper-cased (same length, same order) and every stored token is in
`validMuscles`; hence a collection whose records are all within the vocabulary
stays so. -/
theorem saveMuscles_created (h : Host) (user : Identity) (body : SaveMusclesBody) (now : Nat)
    (db : Store) (hok : (saveMuscles h user body now db).1.status = 201) :
    ∃ selected doc, body.selectedMuscles = .array selected ∧
      (saveMuscles h user body now db).1.data = some doc ∧
      (saveMuscles h user body now db).2.muscleSelections = db.muscleSelections ++ [doc] ∧
      doc.selectedMuscles = selected.map (cleanMuscle h) ∧
      doc.selectedMuscles.length = selected.length ∧
      (∀ t ∈ doc.selectedMuscles, t ∈ validMuscles) ∧
      (db.musclesInVocabulary → (saveMuscles h user body now db).2.musclesInVocabulary) := by
  obtain ⟨field, date⟩ := body
  cases field with
  | missing => simp [saveMuscles, Response.msg] at hok
  | notArray => simp [saveMuscles, Response.msg] at hok
  | arrayWithNonString => simp [saveMuscles, Response.msg] at hok
  | array selected =>
    by_cases hbad : (invalidMuscles h selected).length > 0
    · rw [saveMuscles_invalid h user date now db selected hbad] at hok
      simp [Response.msg] at hok
    · by_cases hauth : user.email = ""
      · simp [saveMuscles, hbad, hauth, Response.msg] at hok
      · cases hdoc : MuscleSelection.create user.email date (cleanedMuscles h selected) now with
        | none => simp [saveMuscles, hbad, hauth, hdoc, Response.msg] at hok
        | some doc =>
          have hsel := MuscleSelection.create_selectedMuscles hdoc
          have hvoc : ∀ t ∈ doc.selectedMuscles, t ∈ validMuscles := by
            rw [hsel]; exact cleaned_in_vocabulary h selected hbad
          refine ⟨selected, doc, rfl, ?_, ?_, ?_, ?_, hvoc, ?_⟩
          · simp [saveMuscles, hbad, hauth, hdoc, Response.msgData]
          · simp [saveMuscles, hbad, hauth, hdoc]
          · rw [hsel]; rfl
          · rw [hsel]; simp [cleanedMuscles]
          · intro hinv r hr
            simp only [saveMuscles, if_neg hbad, if_neg hauth, hdoc, List.mem_append,
              List.mem_singleton] at hr
            rcases hr with hr | rfl
            · exact hinv r hr
            · exact hvoc

/-- C2, at the request `["chest", " abs "]`: it answers 201 and stores
`["CHEST", "ABS"]`. -/
theorem saveMuscles_created_witness :
    (saveMuscles demoHost ⟨1, "a@b.c", "Ann"⟩ ⟨.array ["chest", " abs "], some "2024-03-05"⟩
        7 Store.empty).1.status = 201 ∧
    ∃ selected doc, (⟨.array ["chest", " abs "], some "2024-03-05"⟩ : SaveMusclesBody).selectedMuscles
        = .array selected ∧
      (saveMuscles demoHost ⟨1, "a@b.c", "Ann"⟩ ⟨.array ["chest", " abs "], some "2024-03-05"⟩
        7 Store.empty).1.data = some doc ∧
      (saveMuscles demoHost ⟨1, "a@b.c", "Ann"⟩ ⟨.array ["chest", " abs "], some "2024-03-05"⟩
        7 Store.empty).2.muscleSelections = Store.empty.muscleSelections ++ [doc] ∧
      doc.selectedMuscles = selected.map (cleanMuscle demoHost) ∧
      doc.selectedMuscles.length = selected.length ∧
      (∀ t ∈ doc.selectedMuscles, t ∈ validMuscles) ∧
      (Store.empty.musclesInVocabulary →
        (saveMuscles demoHost ⟨1, "a@b.c", "Ann"⟩ ⟨.array ["chest", " abs "], some "2024-03-05"⟩
          7 Store.empty).2.musclesInVocabulary) :=
  ⟨by decide, saveMuscles_created demoHost ⟨1, "a@b.c", "Ann"⟩
    ⟨.array ["chest", " abs "], some "2024-03-05"⟩ 7 Store.empty (by decide)⟩

/-! ## Theorems: dates -/

/-- The value `yearFromDay d` is the year whose first day is the last one not after `d`:
the defining property of `YearFromTime`. -/
theorem yearFromDay_spec (d : Int) :
    dayFromYear (yearFromDay d) ≤ d ∧ d < dayFromYear (yearFromDay d + 1) := by
  unfold yearFromDay
  simp only
  generalize hq : (400 * d) / 146097 = q
  have hq1 : 146097 * q ≤ 400 * d := by omega
  have hq2 : 400 * d < 146097 * (q + 1) := by omega
  clear hq
  split_ifs with h1 h2
  · rw [sub_add_cancel]
    refine ⟨?_, h1⟩
    unfold dayFromYear at *
    omega
  · refine ⟨h2, ?_⟩
    unfold dayFromYear at *
    omega
  · exact ⟨not_lt.mp h1, not_le.mp h2⟩

/-- A time value in the range of `TimeClip` has a year of at most six digits,
which is what the expanded year of `toISOString` writes. -/
theorem yearFromTime_bounds (t : Int) (hlo : -maxTime ≤ t) (hhi : t ≤ maxTime) :
    -271821 ≤ yearFromTime t ∧ yearFromTime t ≤ 275760 := by
  have hspec := yearFromDay_spec (day t)
  have hd : -100000000 ≤ day t ∧ day t ≤ 100000000 := by
    unfold day msPerDay
    unfold maxTime at hlo hhi
    constructor <;> omega
  unfold yearFromTime
  generalize yearFromDay (day t) = y at hspec
  unfold dayFromYear at hspec
  constructor <;> omega

theorem leapDays_range (y : Int) : leapDays y = 0 ∨ leapDays y = 1 := by
  unfold leapDays
  split_ifs <;> simp

theorem dayFromYear_succ (y : Int) :
    dayFromYear (y + 1) = dayFromYear y + 365 + leapDays y := by
  unfold leapDays isLeapYear
  by_cases h4 : y % 4 = 0 <;> by_cases h100 : y % 100 = 0 <;> by_cases h400 : y % 400 = 0 <;>
    simp [h4, h100, h400, dayFromYear] <;> omega

theorem dayWithinYear_range (t : Int) :
    0 ≤ dayWithinYear t ∧ dayWithinYear t < 365 + leapDays (yearFromTime t) := by
  have h := yearFromDay_spec (day t)
  rw [dayFromYear_succ] at h
  unfold dayWithinYear yearFromTime
  constructor <;> omega

theorem monthOfYearDay_le (d l : Int) : monthOfYearDay d l ≤ 11 := by
  unfold monthOfYearDay
  by_cases h0 : d < 31
  · rw [if_pos h0]; omega
  rw [if_neg h0]
  by_cases h1 : d < 59 + l
  · rw [if_pos h1]; omega
  rw [if_neg h1]
  by_cases h2 : d < 90 + l
  · rw [if_pos h2]; omega
  rw [if_neg h2]
  by_cases h3 : d < 120 + l
  · rw [if_pos h3]; omega
  rw [if_neg h3]
  by_cases h4 : d < 151 + l
  · rw [if_pos h4]; omega
  rw [if_neg h4]
  by_cases h5 : d < 181 + l
  · rw [if_pos h5]; omega
  rw [if_neg h5]
  by_cases h6 : d < 212 + l
  · rw [if_pos h6]; omega
  rw [if_neg h6]
  by_cases h7 : d < 243 + l
  · rw [if_pos h7]; omega
  rw [if_neg h7]
  by_cases h8 : d < 273 + l
  · rw [if_pos h8]; omega
  rw [if_neg h8]
  by_cases h9 : d < 304 + l
  · rw [if_pos h9]; omega
  rw [if_neg h9]
  by_cases h10 : d < 334 + l
  · rw [if_pos h10]; omega
  rw [if_neg h10]

theorem monthFromTime_le (t : Int) : monthFromTime t ≤ 11 :=
  monthOfYearDay_le _ _

theorem dayOfMonth_range (d l : Int) (h0 : 0 ≤ d) (h1 : d < 365 + l) (hl : l = 0 ∨ l = 1) :
    1 ≤ d - monthStart (monthOfYearDay d l) l + 1 ∧
      d - monthStart (monthOfYearDay d l) l + 1 ≤ 31 := by
  unfold monthOfYearDay
  by_cases h0 : d < 31
  · rw [if_pos h0]; (simp only [monthStart]; omega)
  rw [if_neg h0]
  by_cases h1 : d < 59 + l
  · rw [if_pos h1]; (simp only [monthStart]; omega)
  rw [if_neg h1]
  by_cases h2 : d < 90 + l
  · rw [if_pos h2]; (simp only [monthStart]; omega)
  rw [if_neg h2]
  by_cases h3 : d < 120 + l
  · rw [if_pos h3]; (simp only [monthStart]; omega)
  rw [if_neg h3]
  by_cases h4 : d < 151 + l
  · rw [if_pos h4]; (simp only [monthStart]; omega)
  rw [if_neg h4]
  by_cases h5 : d < 181 + l
  · rw [if_pos h5]; (simp only [monthStart]; omega)
  rw [if_neg h5]
  by_cases h6 : d < 212 + l
  · rw [if_pos h6]; (simp only [monthStart]; omega)
  rw [if_neg h6]
  by_cases h7 : d < 243 + l
  · rw [if_pos h7]; (simp only [monthStart]; omega)
  rw [if_neg h7]
  by_cases h8 : d < 273 + l
  · rw [if_pos h8]; (simp only [monthStart]; omega)
  rw [if_neg h8]
  by_cases h9 : d < 304 + l
  · rw [if_pos h9]; (simp only [monthStart]; omega)
  rw [if_neg h9]
  by_cases h10 : d < 334 + l
  · rw [if_pos h10]; (simp only [monthStart]; omega)
  rw [if_neg h10]
  (simp only [monthStart]; omega)

theorem dateFromTime_range (t : Int) : 1 ≤ dateFromTime t ∧ dateFromTime t ≤ 31 :=
  dayOfMonth_range _ _ (dayWithinYear_range t).1 (dayWithinYear_range t).2
    (leapDays_range (yearFromTime t))

theorem digitChar_isDigit (n : Nat) : (digitChar n).isDigit = true := by
  have key : ∀ k, k < 10 → (Char.ofNat (48 + k)).isDigit = true := by decide
  exact key (n % 10) (Nat.mod_lt _ (by decide))

theorem digitChar_ne_T (n : Nat) : digitChar n ≠ 'T' := by
  have key : ∀ k, k < 10 → Char.ofNat (48 + k) ≠ 'T' := by decide
  exact key (n % 10) (Nat.mod_lt _ (by decide))

theorem padDigits_ne_T (w n : Nat) : ∀ c ∈ padDigits w n, c ≠ 'T' := by
  induction w generalizing n with
  | zero => intro c hc; simp [padDigits] at hc
  | succ w ih =>
    intro c hc
    simp only [padDigits, List.mem_append, List.mem_singleton] at hc
    rcases hc with hc | rfl
    · exact ih _ c hc
    · exact digitChar_ne_T n

theorem isoYear_ne_T (y : Int) : ∀ c ∈ isoYear y, c ≠ 'T' := by
  intro c hc
  unfold isoYear at hc
  split_ifs at hc
  · exact padDigits_ne_T _ _ c hc
  · rcases List.mem_cons.mp hc with rfl | hc
    · decide
    · exact padDigits_ne_T _ _ c hc
  · rcases List.mem_cons.mp hc with rfl | hc
    · decide
    · exact padDigits_ne_T _ _ c hc

theorem isoDateChars_ne_T (t : Int) : ∀ c ∈ isoDateChars t, c ≠ 'T' := by
  unfold isoDateChars
  rw [List.forall_mem_append, List.forall_mem_append, List.forall_mem_cons, List.forall_mem_cons]
  exact ⟨⟨isoYear_ne_T _, by decide, padDigits_ne_T _ _⟩, by decide, padDigits_ne_T _ _⟩

/-- The formatted date is the date part of `toISOString`: the year, month and
day of the time value in UTC. -/
theorem formattedDate_eq (t : Int) : formattedDate t = ⟨isoDateChars t⟩ := by
  unfold formattedDate splitTHead toISOString
  congr 1
  show List.takeWhile _ (isoDateChars t ++ 'T' :: isoTimeChars t) = isoDateChars t
  rw [List.takeWhile_append_of_pos]
  · simp [List.takeWhile]
  · intro c hc
    simpa using isoDateChars_ne_T t c hc

theorem padDigits_two (n : Nat) : padDigits 2 n = [digitChar (n / 10), digitChar n] := rfl

theorem padDigits_four (n : Nat) :
    padDigits 4 n =
      [digitChar (n / 10 / 10 / 10), digitChar (n / 10 / 10), digitChar (n / 10), digitChar n] :=
  rfl

theorem padDigits_six (n : Nat) :
    padDigits 6 n =
      [digitChar (n / 10 / 10 / 10 / 10 / 10), digitChar (n / 10 / 10 / 10 / 10),
        digitChar (n / 10 / 10 / 10), digitChar (n / 10 / 10), digitChar (n / 10),
        digitChar n] :=
  rfl

/-- The formatted date has the shape `YYYY-MM-DD` exactly when the UTC year of
the time value is between 0 and 9999; outside, `toISOString` writes a sign and
six digits. -/
theorem formattedDate_isYMD_iff (t : Int) :
    isYMD (formattedDate t) = true ↔ 0 ≤ yearFromTime t ∧ yearFromTime t ≤ 9999 := by
  rw [formattedDate_eq]
  unfold isoDateChars isoYear
  by_cases hy : 0 ≤ yearFromTime t ∧ yearFromTime t ≤ 9999
  · rw [if_pos hy]
    simp [hy, isYMD, padDigits_two, padDigits_four, digitChar_isDigit]
  · rw [if_neg hy]
    by_cases h0 : 0 ≤ yearFromTime t
    · rw [if_pos h0]
      simp [hy, isYMD, padDigits_two, padDigits_six]
    · rw [if_neg h0]
      simp [hy, isYMD, padDigits_two, padDigits_six]

/-! ## Theorems: journal -/

/-- With a `journalEntry` object in the body, a missing `medicine`, `intention`
or `experienceDate`, or an `experienceDate` that does not parse, gives 400 with
no `data`, and the store is unchanged. -/
theorem journal_badRequest (h : Host) (user : Identity) (entry : JournalEntry) (now : Nat)
    (db : Store)
    (hbad : truthyString entry.medicine = none ∨ truthyString entry.intention = none ∨
      truthyString entry.experienceDate = none ∨
      ∃ s, entry.experienceDate = some s ∧ dateParse h s = none) :
    (journal h user ⟨some entry⟩ now db).1.status = 400 ∧
    (journal h user ⟨some entry⟩ now db).1.data = none ∧
    (journal h user ⟨some entry⟩ now db).2 = db := by
  unfold journal
  simp only
  cases hm : truthyString entry.medicine with
  | none => simp [Response.msg]
  | some medicine =>
    cases hi : truthyString entry.intention with
    | none => simp [Response.msg]
    | some intention =>
      cases hd : truthyString entry.experienceDate with
      | none => simp [Response.msg]
      | some experienceDate =>
        rcases hbad with hb | hb | hb | ⟨s, hs, hp⟩
        · rw [hm] at hb; cases hb
        · rw [hi] at hb; cases hb
        · rw [hd] at hb; cases hb
        · have hse : experienceDate = s := by
            rw [hs] at hd
            simp only [truthyString] at hd
            split_ifs at hd
            cases hd; rfl
          subst hse
          simp [hp, Response.msg]

/-- The store changes only when the response is 201: no other outcome of
`POST /api/journal` persists anything. -/
theorem journal_store_unchanged (h : Host) (user : Identity) (body : JournalBody) (now : Nat)
    (db : Store) (hne : (journal h user body now db).1.status ≠ 201) :
    (journal h user body now db).2 = db := by
  unfold journal at hne ⊢
  repeat' split
  all_goals first
    | rfl
    | (exfalso; apply hne; simp_all [Response.msgData])

/-- C3, at a body without `journalEntry`: the handler answers 500
`"Internal server error"`, not 400; nothing is persisted. -/
theorem journal_absent_entry_responds_500 (h : Host) (user : Identity) (now : Nat) (db : Store) :
    journal h user ⟨none⟩ now db = (Response.msg 500 "Internal server error", db) ∧
    (journal h user ⟨none⟩ now db).1.status ≠ 400 := by
  constructor
  · rfl
  · simp [journal, Response.msg]

theorem Journal.create_experienceDate {email medicine intention experienceDate : String}
    {currentState postExperience : Option String} {now : Nat} {doc : Journal}
    (hdoc : Journal.create email medicine intention experienceDate currentState postExperience
      now = some doc) :
    doc.experienceDate = experienceDate := by
  unfold Journal.create at hdoc
  split at hdoc
  · rename_i e m i d he hm hi hd
    cases hdoc
    simp only [requiredString] at hd
    split_ifs at hd
    cases hd
    rfl
  · cases hdoc

/-- An accepted journal request (201) stores one record whose `experienceDate`
is the date part of `toISOString` of the parsed date: its UTC year, month and
day. The stored string has the shape `YYYY-MM-DD` exactly when that year is
between 0 and 9999. -/
theorem journal_created (h : Host) (user : Identity) (body : JournalBody) (now : Nat)
    (db : Store) (hok : (journal h user body now db).1.status = 201) :
    ∃ entry s t doc, body.journalEntry = some entry ∧ entry.experienceDate = some s ∧
      dateParse h s = some t ∧
      (journal h user body now db).1.data = some doc ∧
      (journal h user body now db).2.journals = db.journals ++ [doc] ∧
      doc.experienceDate = ⟨isoDateChars t⟩ ∧
      (isYMD doc.experienceDate = true ↔ 0 ≤ yearFromTime t ∧ yearFromTime t ≤ 9999) := by
  obtain ⟨entryOpt⟩ := body
  cases entryOpt with
  | none => simp [journal, Response.msg] at hok
  | some entry =>
    unfold journal at hok ⊢
    simp only at hok ⊢
    cases hm : truthyString entry.medicine with
    | none => simp [hm, Response.msg] at hok
    | some medicine =>
      cases hi : truthyString entry.intention with
      | none => simp [hm, hi, Response.msg] at hok
      | some intention =>
        cases hd : truthyString entry.experienceDate with
        | none => simp [hm, hi, hd, Response.msg] at hok
        | some experienceDate =>
          have hs : entry.experienceDate = some experienceDate := by
            cases hx : entry.experienceDate with
            | none => rw [hx] at hd; simp [truthyString] at hd
            | some s =>
              rw [hx] at hd
              simp only [truthyString] at hd
              split_ifs at hd
              cases hd; rfl
          cases hp : dateParse h experienceDate with
          | none => simp [hm, hi, hd, hp, Response.msg] at hok
          | some t =>
            cases hdoc : Journal.create user.email medicine intention (formattedDate t)
                entry.currentState entry.postExperience now with
            | none => simp [hm, hi, hd, hp, hdoc, Response.msg] at hok
            | some doc =>
              have hdate := Journal.create_experienceDate hdoc
              refine ⟨entry, experienceDate, t, doc, rfl, hs, hp, ?_, ?_, ?_, ?_⟩
              · simp [hp, hdoc, Response.msgData]
              · simp [hp, hdoc]
              · rw [hdate, formattedDate_eq]
              · rw [hdate]; exact formattedDate_isYMD_iff t

/-- The example of the claim: `"2024-03-05T10:00:00Z"` stores `"2024-03-05"`,
whatever the host. -/
theorem journal_stores_2024_03_05 (h : Host) :
    (journal h ⟨1, "a@b.c", "Ann"⟩
        ⟨some ⟨some "psilocybin", some "clarity", some "2024-03-05T10:00:00Z", none, none⟩⟩
        7 Store.empty).1 =
      Response.msgData 201 "Journal entry saved successfully!"
        ⟨"a@b.c", "psilocybin", "clarity", "2024-03-05", none, none, 7⟩ :=
  rfl

/-- C4, at the `experienceDate` `"+010000-01-01T00:00:00.000Z"` (the first
instant of year 10000, in the expanded-year form of the date-time format): the
request is accepted with 201 and the stored `experienceDate` is
`"+010000-01-01"`, thirteen characters with a sign and a six-digit year, not of
the shape `YYYY-MM-DD`. -/
theorem journal_expanded_year_not_YMD (h : Host) :
    (journal h ⟨1, "a@b.c", "Ann"⟩
        ⟨some ⟨some "psilocybin", some "clarity", some "+010000-01-01T00:00:00.000Z", none, none⟩⟩
        7 Store.empty).1 =
      Response.msgData 201 "Journal entry saved successfully!"
        ⟨"a@b.c", "psilocybin", "clarity", "+010000-01-01", none, none, 7⟩ ∧
    isYMD "+010000-01-01" = false ∧ "+010000-01-01".length = 13 :=
  ⟨rfl, rfl, rfl⟩

/-! ## Theorems: the `auth` middleware -/

theorem auth_of_unverified {α : Type} (h : Host) (env : Env) (db : Store) (now : Nat)
    (header : Option String) (hbad : verifiedPayload h env now header = none) :
    (auth h env db now header : AuthOutcome α) =
        .respond (Response.msg 401 "No auth token found. Please log in.") ∨
    (auth h env db now header : AuthOutcome α) =
        .respond (Response.msg 401 "Invalid or expired token. Please log in again.") := by
  unfold verifiedPayload at hbad
  unfold auth
  cases hb : bearerToken header with
  | none => left; rfl
  | some token =>
    rw [hb] at hbad
    simp only at hbad ⊢
    by_cases ht : token = ""
    · left; rw [if_pos ht]
    · right
      rw [if_neg ht] at hbad ⊢
      rw [hbad]

theorem auth_of_verified {α : Type} (h : Host) (env : Env) (db : Store) (now : Nat)
    (header : Option String) (p : TokenPayload) (hp : verifiedPayload h env now header = some p) :
    (auth h env db now header : AuthOutcome α) =
      match findById db p.userId with
      | none => .respond (Response.msg 404 "User not found")
      | some user => .next { userId := user.id, email := user.email, name := user.name } := by
  unfold verifiedPayload at hp
  unfold auth
  cases hb : bearerToken header with
  | none => rw [hb] at hp; cases hp
  | some token =>
    rw [hb] at hp
    simp only at hp ⊢
    by_cases ht : token = ""
    · rw [if_pos ht] at hp; cases hp
    · rw [if_neg ht] at hp ⊢
      rw [hp]

/-- C6. The middleware ends in exactly one of three outcomes. When the header
is missing, the token text is empty or `jwt.verify` throws, it responds 401 with
a body that is a message only. When the token verifies and `findById` finds no
user, it responds 404. When the token verifies and the user exists, it calls
`next()` with `req.user = { userId, email, name }` of that user (`Identity` has
no password field). Whenever it responds, the status is 401 or 404, the body
has no `data`, `token` or `user` field, and the protected route returns that
response without running the handler, the store unchanged. -/
theorem auth_three_outcomes {α : Type} (h : Host) (env : Env) (db : Store) (now : Nat)
    (header : Option String) :
    (verifiedPayload h env now header = none →
      ∃ m, (auth h env db now header : AuthOutcome α) = .respond (Response.msg 401 m)) ∧
    (∀ p, verifiedPayload h env now header = some p → findById db p.userId = none →
      (auth h env db now header : AuthOutcome α) = .respond (Response.msg 404 "User not found")) ∧
    (∀ p u, verifiedPayload h env now header = some p → findById db p.userId = some u →
      (auth h env db now header : AuthOutcome α) =
        .next { userId := u.id, email := u.email, name := u.name }) ∧
    (∀ r, (auth h env db now header : AuthOutcome α) = .respond r →
      (r.status = 401 ∨ r.status = 404) ∧ r.message.isSome = true ∧ r.data = none ∧
      r.token = none ∧ r.user = none ∧
      ∀ handler : Identity → Store → Response α × Store,
        protect handler h env now header db = (r, db)) := by
  refine ⟨?_, ?_, ?_, ?_⟩
  · intro hbad
    rcases auth_of_unverified (α := α) h env db now header hbad with hr | hr
    · exact ⟨_, hr⟩
    · exact ⟨_, hr⟩
  · intro p hp hnone
    rw [auth_of_verified h env db now header p hp, hnone]
  · intro p u hp hsome
    rw [auth_of_verified h env db now header p hp, hsome]
  · intro r hr
    have hprot : ∀ handler : Identity → Store → Response α × Store,
        protect handler h env now header db = (r, db) := by
      intro handler
      unfold protect
      rw [hr]
    cases hv : verifiedPayload h env now header with
    | none =>
      rcases auth_of_unverified (α := α) h env db now header hv with hr' | hr'
      · rw [hr'] at hr
        cases hr
        exact ⟨Or.inl rfl, rfl, rfl, rfl, rfl, hprot⟩
      · rw [hr'] at hr
        cases hr
        exact ⟨Or.inl rfl, rfl, rfl, rfl, rfl, hprot⟩
    | some p =>
      rw [auth_of_verified h env db now header p hv] at hr
      cases hf : findById db p.userId with
      | none =>
        rw [hf] at hr
        cases hr
        exact ⟨Or.inr rfl, rfl, rfl, rfl, rfl, hprot⟩
      | some u =>
        rw [hf] at hr
        cases hr

/-! ## Theorems: register and login -/

theorem findOneByEmail_isSome_iff (h : Host) (db : Store) (email : String) :
    (findOneByEmail h db email).isSome = true ↔ ∃ u ∈ db.users, u.email = normEmail h email := by
  unfold findOneByEmail
  rw [List.find?_isSome]
  simp

theorem register_existing (h : Host) (env : Env) (body : RegisterBody) (now : Nat) (db : Store)
    (hex : ∃ u ∈ db.users, u.email = normEmail h body.email) :
    register h env body now db = (Response.msg 400 "User already exists", db) := by
  have hsome := (findOneByEmail_isSome_iff h db body.email).mpr hex
  unfold register
  cases hf : findOneByEmail h db body.email with
  | none => rw [hf] at hsome; cases hsome
  | some u => rfl

theorem User.create_email {h : Host} {db : Store} {body : RegisterBody} {now : Nat} {user : User}
    (hu : User.create h db body now = some user) : user.email = normEmail h body.email := by
  unfold User.create at hu
  split at hu
  · rename_i email password name he hp hn
    split_ifs at hu
    cases hu
    simp only [requiredString] at he
    split_ifs at he
    cases he
    rfl
  · cases hu

theorem register_created (h : Host) (env : Env) (body : RegisterBody) (now : Nat) (db : Store)
    (hok : (register h env body now db).1.status = 201) :
    ∃ user, User.create h db body now = some user ∧ findOneByEmail h db body.email = none ∧
      register h env body now db =
        (Response.tokenUser 201
            (jwtSignDay h (registerSecret env) { userId := user.id, email := user.email } now)
            { id := user.id, email := user.email, name := user.name },
          { db with users := db.users ++ [user], nextId := db.nextId + 1 }) := by
  unfold register at hok ⊢
  cases hf : findOneByEmail h db body.email with
  | some u => simp [hf, Response.msg] at hok
  | none =>
    cases hu : User.create h db body now with
    | none => simp [hf, hu, Response.msg] at hok
    | some user => exact ⟨user, rfl, rfl, rfl⟩

/-- C5. For two emails equal after the setters of the `email` path (lower-case,
then trim): if a user is stored under the first, register with the second
answers 400 `"User already exists"` with no token and leaves the store
unchanged; and after a successful register with the first, register with the
second answers so, whatever the password and name. -/
theorem register_duplicate_email (h : Host) (env : Env) (db : Store) (now : Nat)
    (e1 e2 : String) (pw name : Option String) (heq : normEmail h e1 = normEmail h e2) :
    ((∃ u ∈ db.users, u.email = normEmail h e1) →
      register h env ⟨e2, pw, name⟩ now db = (Response.msg 400 "User already exists", db) ∧
      (register h env ⟨e2, pw, name⟩ now db).1.token = none ∧
      (register h env ⟨e2, pw, name⟩ now db).2.users = db.users) ∧
    (∀ pw1 name1 now1, (register h env ⟨e1, pw1, name1⟩ now1 db).1.status = 201 →
      register h env ⟨e2, pw, name⟩ now (register h env ⟨e1, pw1, name1⟩ now1 db).2 =
        (Response.msg 400 "User already exists", (register h env ⟨e1, pw1, name1⟩ now1 db).2)) := by
  constructor
  · intro hex
    have hr := register_existing h env ⟨e2, pw, name⟩ now db (by rw [← heq]; exact hex)
    rw [hr]
    exact ⟨rfl, rfl, rfl⟩
  · intro pw1 name1 now1 hok
    obtain ⟨user, hu, -, hr⟩ := register_created h env ⟨e1, pw1, name1⟩ now1 db hok
    apply register_existing
    refine ⟨user, ?_, ?_⟩
    · rw [hr]; simp
    · rw [User.create_email hu]; exact heq

/-- C5, at `"ann@example.com"` and `" Ann@Example.COM "`: the first register
succeeds and the second answers 400. -/
theorem register_duplicate_email_witness :
    (register demoHost ⟨some "k"⟩ ⟨"ann@example.com", some "secret1", some "Ann"⟩ 5 Store.empty).1.status
        = 201 ∧
    register demoHost ⟨some "k"⟩ ⟨" Ann@Example.COM ", some "other-password", some "Bob"⟩ 9
        (register demoHost ⟨some "k"⟩ ⟨"ann@example.com", some "secret1", some "Ann"⟩ 5 Store.empty).2 =
      (Response.msg 400 "User already exists",
        (register demoHost ⟨some "k"⟩ ⟨"ann@example.com", some "secret1", some "Ann"⟩ 5 Store.empty).2) :=
  ⟨by decide,
    (register_duplicate_email demoHost ⟨some "k"⟩ Store.empty 9 "ann@example.com" " Ann@Example.COM "
      (some "other-password") (some "Bob") (by decide)).2 (some "secret1") (some "Ann") 5 (by decide)⟩

/-- C8. A login with an email that has no user (whatever the password field)
and a login with an existing email and a password that bcrypt does not match get
the same response: 401 with the body `{ message: "Invalid email or password!" }`,
no `token` and no `user`. -/
theorem login_failures_identical (h : Host) (env : Env) (db : Store) (now1 now2 : Nat)
    (e1 e2 : String) (p1 : Option String) (pw2 : String) (u : User)
    (hnone : findOneByEmail h db e1 = none) (hsome : findOneByEmail h db e2 = some u)
    (hwrong : h.bcryptCompare pw2 u.password = false) :
    login h env ⟨e1, p1⟩ now1 db = login h env ⟨e2, some pw2⟩ now2 db ∧
    login h env ⟨e1, p1⟩ now1 db =
      { status := 401, message := some "Invalid email or password!", token := none,
        user := none, data := none } := by
  have h1 : login h env ⟨e1, p1⟩ now1 db = Response.msg 401 "Invalid email or password!" := by
    unfold login
    simp only [hnone]
  have h2 : login h env ⟨e2, some pw2⟩ now2 db = Response.msg 401 "Invalid email or password!" := by
    unfold login
    simp only [hsome, hwrong, if_true]
  exact ⟨h1.trans h2.symm, h1⟩

/-- C8, on a store that holds `ann@example.com`: a login for the unknown
`bob@example.com` and a login for `ann@example.com` with a wrong password get
the same 401. -/
theorem login_failures_identical_witness :
    login demoHost ⟨some "k"⟩ ⟨"bob@example.com", some "secret1"⟩ 10 annStore =
      login demoHost ⟨some "k"⟩ ⟨"ann@example.com", some "not-the-password"⟩ 20 annStore ∧
    login demoHost ⟨some "k"⟩ ⟨"bob@example.com", some "secret1"⟩ 10 annStore =
      { status := 401, message := some "Invalid email or password!", token := none,
        user := none, data := none } :=
  login_failures_identical demoHost ⟨some "k"⟩ annStore 10 20 "bob@example.com" "ann@example.com"
    (some "secret1") "not-the-password"
    ⟨0, "ann@example.com", "hash:secret1", "Ann", false, 5⟩ (by decide) (by decide) (by decide)

/-! ## Theorems: token issuance and verification -/

/-- With `JWT_SECRET` not set (or empty), `jwt.verify` throws for every token:
the middleware answers 401 to every request. -/
theorem auth_rejects_all_without_secret {α : Type} (h : Host) (env : Env) (db : Store) (now : Nat)
    (header : Option String) (hunset : env.jwtSecret = none ∨ env.jwtSecret = some "") :
    ∃ m, (auth h env db now header : AuthOutcome α) = .respond (Response.msg 401 m) := by
  have hbad : verifiedPayload h env now header = none → ∃ m,
      (auth h env db now header : AuthOutcome α) = .respond (Response.msg 401 m) := by
    intro hv
    rcases auth_of_unverified (α := α) h env db now header hv with hr | hr
    · exact ⟨_, hr⟩
    · exact ⟨_, hr⟩
  apply hbad
  unfold verifiedPayload
  cases bearerToken header with
  | none => rfl
  | some token =>
    simp only
    split_ifs
    · rfl
    · unfold jwtVerifyEnv
      rcases hunset with hu | hu <;> simp [hu]

/-- With `JWT_SECRET` not set (or empty), a successful register still issues a
token, signed with the fallback `"your-secret-key"`. -/
theorem register_signs_with_fallback (h : Host) (env : Env) (body : RegisterBody) (now : Nat)
    (db : Store) (hunset : env.jwtSecret = none ∨ env.jwtSecret = some "")
    (hok : (register h env body now db).1.status = 201) :
    ∃ user, User.create h db body now = some user ∧
      (register h env body now db).1.token =
        some (jwtSignDay h "your-secret-key" { userId := user.id, email := user.email } now) := by
  obtain ⟨user, hu, -, hr⟩ := register_created h env body now db hok
  refine ⟨user, hu, ?_⟩
  rw [hr]
  have hs : registerSecret env = "your-secret-key" := by
    unfold registerSecret
    rcases hunset with hu | hu <;> simp [hu]
  rw [hs]
  rfl

/-- C7, with `JWT_SECRET` not set: register answers 201 with a token signed
under the fallback secret `"your-secret-key"`; the middleware, which verifies
with `process.env.JWT_SECRET` alone, rejects that token with 401 one second
later; and login for the same user, which signs with `process.env.JWT_SECRET`
alone, answers 500. -/
theorem register_token_rejected_without_secret :
    register demoHost ⟨none⟩ ⟨"ann@example.com", some "secret1", some "Ann"⟩ 1700000000000
        Store.empty =
      (Response.tokenUser 201 "your-secret-key.0000000000.001700086400.ann@example.com"
          ⟨0, "ann@example.com", "Ann"⟩,
        { Store.empty with
          users := [⟨0, "ann@example.com", "hash:secret1", "Ann", false, 1700000000000⟩],
          nextId := 1 }) ∧
    demoVerify "your-secret-key" "your-secret-key.0000000000.001700086400.ann@example.com"
        1700000001 = some ⟨0, "ann@example.com"⟩ ∧
    (auth demoHost ⟨none⟩
        (register demoHost ⟨none⟩ ⟨"ann@example.com", some "secret1", some "Ann"⟩ 1700000000000
          Store.empty).2
        1700000001000
        (some "Bearer your-secret-key.0000000000.001700086400.ann@example.com") :
        AuthOutcome Unit) =
      .respond (Response.msg 401 "Invalid or expired token. Please log in again.") ∧
    login demoHost ⟨none⟩ ⟨"ann@example.com", some "secret1"⟩ 1700000001000
        (register demoHost ⟨none⟩ ⟨"ann@example.com", some "secret1", some "Ann"⟩ 1700000000000
          Store.empty).2 =
      Response.msg 500 "Error logging in. Please try again later." := by
  refine ⟨by decide, by decide, by decide, by decide⟩

theorem Store.empty_usersValid : Store.empty.usersValid :=
  { emailSet := fun _ hu => nomatch hu
    idFresh := fun _ hu => nomatch hu
    idUnique := List.Pairwise.nil }

theorem User.create_id {h : Host} {db : Store} {body : RegisterBody} {now : Nat} {user : User}
    (hu : User.create h db body now = some user) : user.id = db.nextId := by
  unfold User.create at hu
  split at hu
  · split_ifs at hu
    cases hu
    rfl
  · cases hu

theorem User.create_email_ne {h : Host} {db : Store} {body : RegisterBody} {now : Nat}
    {user : User} (hu : User.create h db body now = some user) : user.email ≠ "" := by
  unfold User.create at hu
  split at hu
  · rename_i email password name he hp hn
    split_ifs at hu
    cases hu
    simp only [requiredString] at he
    split_ifs at he with hempty
    cases he
    exact hempty
  · cases hu

/-- The invariants of the users collection hold on the empty store and are kept
by every register request, whatever its outcome. -/
theorem register_preserves_usersValid (h : Host) (env : Env) (body : RegisterBody) (now : Nat)
    (db : Store) (hwf : db.usersValid) : (register h env body now db).2.usersValid := by
  by_cases hok : (register h env body now db).1.status = 201
  · obtain ⟨user, hu, -, hr⟩ := register_created h env body now db hok
    rw [hr]
    have hid := User.create_id hu
    refine ⟨?_, ?_, ?_⟩
    · intro u hmem
      rcases List.mem_append.mp hmem with hm | hm
      · exact hwf.emailSet u hm
      · rw [List.mem_singleton.mp hm]; exact User.create_email_ne hu
    · intro u hmem
      rcases List.mem_append.mp hmem with hm | hm
      · exact Nat.lt_succ_of_lt (hwf.idFresh u hm)
      · rw [List.mem_singleton.mp hm, hid]; exact Nat.lt_succ_self _
    · show (db.users ++ [user]).Pairwise fun u v => u.id ≠ v.id
      rw [List.pairwise_append]
      refine ⟨hwf.idUnique, List.pairwise_singleton _ _, ?_⟩
      intro u hm v hv
      rw [List.mem_singleton.mp hv, hid]
      exact Nat.ne_of_lt (hwf.idFresh u hm)
  · have hsame : (register h env body now db).2 = db := by
      unfold register at hok ⊢
      cases hf : findOneByEmail h db body.email with
      | some u => rfl
      | none =>
        cases hu : User.create h db body now with
        | none => rfl
        | some user => simp [hf, hu, Response.tokenUser] at hok
    rw [hsame]
    exact hwf

theorem find_id_of_pairwise (users : List User) (u : User) (hmem : u ∈ users)
    (huniq : users.Pairwise fun a b => a.id ≠ b.id) :
    users.find? (fun v => v.id == u.id) = some u := by
  induction users with
  | nil => cases hmem
  | cons v rest ih =>
    rw [List.pairwise_cons] at huniq
    rcases List.mem_cons.mp hmem with rfl | hrest
    · simp [List.find?]
    · have hne : v.id ≠ u.id := huniq.1 u hrest
      have hb : (v.id == u.id) = false := by simpa using hne
      rw [List.find?, hb]
      exact ih hrest huniq.2

theorem findById_of_mem (db : Store) (hwf : db.usersValid) (u : User) (hmem : u ∈ db.users) :
    findById db u.id = some u :=
  find_id_of_pairwise db.users u hmem hwf.idUnique

/-- On a store that satisfies the invariants, the identity `auth` passes to the
handler has an email that is set. -/
theorem auth_next_email_ne_empty {α : Type} (h : Host) (env : Env) (db : Store) (now : Nat)
    (header : Option String) (hwf : db.usersValid) (id : Identity)
    (hnext : (auth h env db now header : AuthOutcome α) = .next id) : id.email ≠ "" := by
  cases hv : verifiedPayload h env now header with
  | none =>
    rcases auth_of_unverified (α := α) h env db now header hv with hr | hr <;>
      (rw [hr] at hnext; cases hnext)
  | some p =>
    rw [auth_of_verified h env db now header p hv] at hnext
    cases hf : findById db p.userId with
    | none => rw [hf] at hnext; cases hnext
    | some u =>
      rw [hf] at hnext
      cases hnext
      exact hwf.emailSet u (List.mem_of_find?_eq_some hf)

theorem bearerToken_bearer (token : String) :
    bearerToken (some ("Bearer " ++ token)) = some token := by
  unfold bearerToken
  have hd : ("Bearer " ++ token).data = 'B' :: 'e' :: 'a' :: 'r' :: 'e' :: 'r' :: ' ' :: token.data := by
    rw [String.data_append]; rfl
  have hp : "Bearer ".data = ['B', 'e', 'a', 'r', 'e', 'r', ' '] := rfl
  simp only [Option.map_some', hd, hp, removeFirst, startsWith]
  simp

/-- With `JWT_SECRET` set and not empty, a token signed for a stored user with
that secret, which jsonwebtoken verifies at the time of the request, makes
`auth` call `next()` with that user's identity. -/
theorem auth_accepts_signed (h : Host) (env : Env) (secret : String) {α : Type}
    (hs : env.jwtSecret = some secret) (hne : secret ≠ "") (db : Store) (hwf : db.usersValid)
    (u : User) (hmem : u ∈ db.users) (now now' : Nat)
    (hnonempty : jwtSignDay h secret { userId := u.id, email := u.email } now ≠ "")
    (hverify : h.jwtVerify secret (jwtSignDay h secret { userId := u.id, email := u.email } now)
      (now' / 1000) = some { userId := u.id, email := u.email }) :
    (auth h env db now'
        (some ("Bearer " ++ jwtSignDay h secret { userId := u.id, email := u.email } now)) :
        AuthOutcome α) =
      .next { userId := u.id, email := u.email, name := u.name } := by
  have hp : verifiedPayload h env now'
      (some ("Bearer " ++ jwtSignDay h secret { userId := u.id, email := u.email } now)) =
      some { userId := u.id, email := u.email } := by
    unfold verifiedPayload
    rw [bearerToken_bearer]
    simp only [if_neg hnonempty, jwtVerifyEnv, hs, if_neg hne, hverify]
  rw [auth_of_verified h env db now' _ _ hp, findById_of_mem db hwf u hmem]

/-- With `JWT_SECRET` set and not empty, register and login issue the token in
the same way: `jwt.sign` of `{ userId, email }` of the user with that secret,
expiring a day later. On a store that satisfies the invariants, the token a
successful register or login returns makes `auth` call `next()` with that
user's identity at every time at which jsonwebtoken verifies it. -/
theorem issued_token_accepted (h : Host) (env : Env) (secret : String)
    (hs : env.jwtSecret = some secret) (hne : secret ≠ "") (db : Store) (hwf : db.usersValid)
    (now : Nat) :
    (∀ body : RegisterBody, (register h env body now db).1.status = 201 →
      ∃ user, user ∈ (register h env body now db).2.users ∧
        (register h env body now db).1.token =
          some (jwtSignDay h secret { userId := user.id, email := user.email } now) ∧
        ∀ now', jwtSignDay h secret { userId := user.id, email := user.email } now ≠ "" →
          h.jwtVerify secret (jwtSignDay h secret { userId := user.id, email := user.email } now)
            (now' / 1000) = some { userId := user.id, email := user.email } →
          (auth h env (register h env body now db).2 now'
              (some ("Bearer " ++
                jwtSignDay h secret { userId := user.id, email := user.email } now)) :
              AuthOutcome Unit) =
            .next { userId := user.id, email := user.email, name := user.name }) ∧
    (∀ body : LoginBody, (login h env body now db).status = 200 →
      ∃ user, user ∈ db.users ∧
        (login h env body now db).token =
          some (jwtSignDay h secret { userId := user.id, email := user.email } now) ∧
        ∀ now', jwtSignDay h secret { userId := user.id, email := user.email } now ≠ "" →
          h.jwtVerify secret (jwtSignDay h secret { userId := user.id, email := user.email } now)
            (now' / 1000) = some { userId := user.id, email := user.email } →
          (auth h env db now'
              (some ("Bearer " ++
                jwtSignDay h secret { userId := user.id, email := user.email } now)) :
              AuthOutcome Unit) =
            .next { userId := user.id, email := user.email, name := user.name }) := by
  have hsecret : registerSecret env = secret := by
    unfold registerSecret
    simp [hs, hne]
  constructor
  · intro body hok
    obtain ⟨user, hu, -, hr⟩ := register_created h env body now db hok
    have hwf' := register_preserves_usersValid h env body now db hwf
    have hmem : user ∈ (register h env body now db).2.users := by
      rw [hr]; simp
    refine ⟨user, hmem, ?_, ?_⟩
    · rw [hr, hsecret]; rfl
    · intro now' hnonempty hverify
      exact auth_accepts_signed h env secret hs hne _ hwf' user hmem now now' hnonempty hverify
  · intro body hok
    unfold login at hok ⊢
    cases hf : findOneByEmail h db body.email with
    | none => simp [hf, Response.msg] at hok
    | some user =>
      have hmem : user ∈ db.users := List.mem_of_find?_eq_some hf
      cases hpw : body.password with
      | none => simp [hf, hpw, Response.msg] at hok
      | some password =>
        by_cases hcmp : h.bcryptCompare password user.password = false
        · simp [hf, hpw, hcmp, Response.msg] at hok
        · refine ⟨user, hmem, ?_, ?_⟩
          · simp [hcmp, hs, hne, Response.tokenUser]
          · intro now' hnonempty hverify
            exact auth_accepts_signed h env secret hs hne db hwf user hmem now now' hnonempty
              hverify

/-- With `JWT_SECRET` set to `"k"`, the token of a successful register is
accepted by `auth` one second later, and rejected once it has expired. -/
theorem issued_token_accepted_example :
    (auth demoHost ⟨some "k"⟩ annStore 1005
        (some "Bearer k.0000000000.000000086400.ann@example.com") : AuthOutcome Unit) =
      .next ⟨0, "ann@example.com", "Ann"⟩ ∧
    (register demoHost ⟨some "k"⟩ ⟨"ann@example.com", some "secret1", some "Ann"⟩ 5
        Store.empty).1.token = some "k.0000000000.000000086400.ann@example.com" ∧
    (auth demoHost ⟨some "k"⟩ annStore 86400000
        (some "Bearer k.0000000000.000000086400.ann@example.com") : AuthOutcome Unit) =
      .respond (Response.msg 401 "Invalid or expired token. Please log in again.") := by
  refine ⟨by decide, by decide, by decide⟩

/-! ## Theorems: the summarization client -/

theorem chatStep_eq (history : List Turn) (event : ChatEvent) :
    chatStep history event = history ++ (pushedTurn event).toList := by
  cases event with
  | start prompt => simp [chatStep, chatStart, pushedTurn]
  | finish result =>
    simp only [chatStep, chatFinish, pushedTurn]
    cases apiReply result <;> simp

/-- The transcript after a sequence of events is the transcript before followed
by the turns the events push, in the order they happen. -/
theorem chatRun_eq (events : List ChatEvent) :
    ∀ history, chatRun events history = history ++ pushedTurns events := by
  induction events with
  | nil => intro history; simp [chatRun, pushedTurns]
  | cons event rest ih =>
    intro history
    have hrest := ih (chatStep history event)
    unfold chatRun at hrest ⊢
    rw [List.foldl_cons, hrest, chatStep_eq]
    cases hp : pushedTurn event <;> simp [pushedTurns, List.filterMap_cons, hp]

theorem chatWithGPT_success (api : ChatApi) (history : List Turn) (p r : String)
    (during : List ChatEvent)
    (hok : apiReply (api (history ++ [userTurn (some p)])) = some (some r)) :
    chatWithGPT api (some p) history during =
      (some r, history ++ [userTurn (some p)] ++ pushedTurns during ++
        [assistantTurn (some r)]) := by
  unfold chatWithGPT chatStart chatFinish
  simp only [hok, chatRun_eq]

theorem inFlight_counts (events : List ChatEvent) :
    ∀ k m, inFlight events k = some m →
      (startedPrompts events).length + k = (finishedResults events).length + m := by
  induction events with
  | nil =>
    intro k m hm
    simp only [inFlight, Option.some.injEq] at hm
    simp [startedPrompts, finishedResults, hm]
  | cons event rest ih =>
    intro k m hm
    cases event with
    | start prompt =>
      simp only [inFlight] at hm
      have := ih (k + 1) m hm
      simp only [startedPrompts, finishedResults, List.length_cons]
      omega
    | finish result =>
      cases k with
      | zero => simp [inFlight] at hm
      | succ k =>
        simp only [inFlight] at hm
        have := ih k m hm
        simp only [startedPrompts, finishedResults, List.length_cons]
        omega

theorem pushedTurns_length (events : List ChatEvent)
    (hall : ∀ result ∈ finishedResults events, ∃ reply, apiReply result = some (some reply)) :
    (pushedTurns events).length =
      (startedPrompts events).length + (finishedResults events).length := by
  induction events with
  | nil => simp [pushedTurns, startedPrompts, finishedResults]
  | cons event rest ih =>
    cases event with
    | start prompt =>
      have hrest := ih (fun result hr => hall result (by simpa [finishedResults] using hr))
      unfold pushedTurns at hrest ⊢
      simp only [List.filterMap_cons, pushedTurn, startedPrompts, finishedResults,
        List.length_cons, hrest]
      omega
    | finish result =>
      have hrest := ih (fun result' hr =>
        hall result' (by simp only [finishedResults, List.mem_cons]; exact Or.inr hr))
      obtain ⟨reply, hreply⟩ := hall result (by simp [finishedResults])
      unfold pushedTurns at hrest ⊢
      simp only [List.filterMap_cons, pushedTurn, hreply, Option.map_some', startedPrompts,
        finishedResults, List.length_cons, hrest]
      omega

theorem userTurn_mem_pushedTurns (events : List ChatEvent) :
    ∀ prompt ∈ startedPrompts events, userTurn prompt ∈ pushedTurns events := by
  induction events with
  | nil => intro prompt hp; simp [startedPrompts] at hp
  | cons event rest ih =>
    intro prompt hp
    unfold pushedTurns at ih ⊢
    cases event with
    | start q =>
      simp only [startedPrompts, List.mem_cons] at hp
      simp only [List.filterMap_cons, pushedTurn, List.mem_cons]
      rcases hp with rfl | hp
      · exact Or.inl rfl
      · exact Or.inr (ih prompt hp)
    | finish result =>
      simp only [startedPrompts] at hp
      have hrest := ih prompt hp
      simp only [List.filterMap_cons, pushedTurn]
      cases apiReply result <;> simp [hrest]

theorem assistantTurn_mem_pushedTurns (events : List ChatEvent) :
    ∀ result ∈ finishedResults events, ∀ reply, apiReply result = some reply →
      assistantTurn reply ∈ pushedTurns events := by
  induction events with
  | nil => intro result hr; simp [finishedResults] at hr
  | cons event rest ih =>
    intro result hr reply hreply
    unfold pushedTurns at ih ⊢
    cases event with
    | start q =>
      simp only [finishedResults] at hr
      simp only [List.filterMap_cons, pushedTurn, List.mem_cons]
      exact Or.inr (ih result hr reply hreply)
    | finish result' =>
      simp only [finishedResults, List.mem_cons] at hr
      rcases hr with rfl | hr
      · simp [List.filterMap_cons, pushedTurn, hreply]
      · have hrest := ih result hr reply hreply
        simp only [List.filterMap_cons, pushedTurn]
        cases apiReply result' <;> simp [hrest]

/-- After any sequence of events in which `n` calls start, every call in flight
has finished and every call read a reply, the transcript is the initial one
followed by the turns pushed, in order; it holds `1 + 2 n` turns, among them the
user turn of every call and the assistant turn of every reply. -/
theorem chatRun_complete (systemPrompt : String) (events : List ChatEvent) (n : Nat)
    (hdone : inFlight events 0 = some 0) (hn : (startedPrompts events).length = n)
    (hall : ∀ result ∈ finishedResults events, ∃ reply, apiReply result = some (some reply)) :
    chatRun events (initialHistory systemPrompt) =
        initialHistory systemPrompt ++ pushedTurns events ∧
    (chatRun events (initialHistory systemPrompt)).length = 1 + 2 * n ∧
    (∀ prompt ∈ startedPrompts events,
      userTurn prompt ∈ chatRun events (initialHistory systemPrompt)) ∧
    (∀ result ∈ finishedResults events, ∀ reply, apiReply result = some reply →
      assistantTurn reply ∈ chatRun events (initialHistory systemPrompt)) := by
  have hcount := inFlight_counts events 0 0 hdone
  have hlen := pushedTurns_length events hall
  rw [chatRun_eq]
  refine ⟨rfl, ?_, ?_, ?_⟩
  · simp only [List.length_append, initialHistory, List.length_cons, List.length_nil, hlen]
    omega
  · intro prompt hp
    exact List.mem_append_right _ (userTurn_mem_pushedTurns events prompt hp)
  · intro result hr reply hreply
    exact List.mem_append_right _ (assistantTurn_mem_pushedTurns events result hr reply hreply)

/-- C9, as amended. When the call made with the transcript `T` followed by the
user turn succeeds with the reply `r`, `chatWithGPT(p)` returns `r` and leaves
the transcript `T`, the user turn, the turns other calls pushed while this one
awaited its response, and the assistant turn: `T` is an unchanged initial
segment and the call itself adds two turns. With no other call in flight the
transcript is `T`, the user turn, the assistant turn, two turns longer. After
any sequence of events in which `n` calls start and all of them finish with a
reply, however interleaved, the transcript from the initial one holds
`1 + 2 n` turns: the system turn, then the user turn of every call and the
assistant turn of every reply in the order they were pushed. -/
theorem chatWithGPT_exchange (api : ChatApi) (T : List Turn) (p r : String)
    (during : List ChatEvent)
    (hok : apiReply (api (T ++ [userTurn (some p)])) = some (some r)) :
    (chatWithGPT api (some p) T during).1 = some r ∧
    (chatWithGPT api (some p) T during).2 =
      T ++ [userTurn (some p)] ++ pushedTurns during ++ [assistantTurn (some r)] ∧
    (chatWithGPT api (some p) T during).2.take T.length = T ∧
    (chatWithGPT api (some p) T during).2.length = T.length + 2 + (pushedTurns during).length ∧
    (during = [] →
      (chatWithGPT api (some p) T during).2 = T ++ [userTurn (some p), assistantTurn (some r)] ∧
      (chatWithGPT api (some p) T during).2.length = T.length + 2) ∧
    (∀ (systemPrompt : String) (events : List ChatEvent) (n : Nat),
      inFlight events 0 = some 0 → (startedPrompts events).length = n →
      (∀ result ∈ finishedResults events, ∃ reply, apiReply result = some (some reply)) →
      chatRun events (initialHistory systemPrompt) =
          initialHistory systemPrompt ++ pushedTurns events ∧
      (chatRun events (initialHistory systemPrompt)).length = 1 + 2 * n ∧
      (∀ prompt ∈ startedPrompts events,
        userTurn prompt ∈ chatRun events (initialHistory systemPrompt)) ∧
      (∀ result ∈ finishedResults events, ∀ reply, apiReply result = some reply →
        assistantTurn reply ∈ chatRun events (initialHistory systemPrompt))) := by
  rw [chatWithGPT_success api T p r during hok]
  refine ⟨rfl, rfl, ?_, ?_, ?_, ?_⟩
  · simp [List.append_assoc]
  · simp only [List.length_append, List.length_cons, List.length_nil]
    omega
  · intro hnone
    subst hnone
    simp [pushedTurns]
  · intro systemPrompt events n hdone hn hall
    exact chatRun_complete systemPrompt events n hdone hn hall

/-- C9 as amended, with the counting endpoint: a call `"a"` during whose await
another call `"b"` starts, and a sequence of two interleaved calls that both
finish. -/
theorem chatWithGPT_exchange_witness :
    (chatWithGPT countingApi (some "a") (initialHistory "You summarize.")
        [.start (some "b")]).1 = some "02" ∧
    (chatWithGPT countingApi (some "a") (initialHistory "You summarize.")
        [.start (some "b")]).2 =
      initialHistory "You summarize." ++ [userTurn (some "a")] ++
        pushedTurns [.start (some "b")] ++ [assistantTurn (some "02")] ∧
    (chatRun
        [.start (some "a"), .start (some "b"),
          .finish (countingApi (initialHistory "You summarize." ++ [userTurn (some "a")])),
          .finish (countingApi (initialHistory "You summarize." ++
            [userTurn (some "a"), userTurn (some "b")]))]
        (initialHistory "You summarize.")).length = 1 + 2 * 2 := by
  have key := chatWithGPT_exchange countingApi (initialHistory "You summarize.") "a" "02"
    [.start (some "b")] (by decide)
  refine ⟨key.1, key.2.1, ?_⟩
  refine (key.2.2.2.2.2 "You summarize." _ 2 (by decide) (by decide) ?_).2.1
  intro result hr
  simp only [finishedResults, List.mem_cons, List.mem_nil_iff, or_false] at hr
  rcases hr with rfl | rfl
  · exact ⟨"02", by decide⟩
  · exact ⟨"03", by decide⟩

/-- C9, as stated, fails with two calls in flight: the call `"a"` succeeds with
the reply `"02"`, the call `"b"` starts while it awaits, and at its return the
transcript is the initial turn, the user turn `"a"`, the user turn `"b"`, the
assistant turn `"02"`: not the initial turn followed by the exchange of `"a"`,
and three turns longer than at the call. -/
theorem chatWithGPT_two_in_flight :
    (chatWithGPT countingApi (some "a") (initialHistory "You summarize.")
        [.start (some "b")]).1 = some "02" ∧
    (chatWithGPT countingApi (some "a") (initialHistory "You summarize.")
        [.start (some "b")]).2 =
      initialHistory "You summarize." ++
        [userTurn (some "a"), userTurn (some "b"), assistantTurn (some "02")] ∧
    (chatWithGPT countingApi (some "a") (initialHistory "You summarize.")
        [.start (some "b")]).2 ≠
      initialHistory "You summarize." ++ [userTurn (some "a"), assistantTurn (some "02")] ∧
    (chatWithGPT countingApi (some "a") (initialHistory "You summarize.")
        [.start (some "b")]).2.length = (initialHistory "You summarize.").length + 3 := by
  refine ⟨by decide, by decide, by decide, by decide⟩

/-! ## Theorems: `saveAudio` and the outcome of the summarization call -/

theorem chatWithGPT_failure (api : ChatApi) (prompt : Option String) (history : List Turn)
    (during : List ChatEvent) (hfail : apiReply (api (history ++ [userTurn prompt])) = none) :
    chatWithGPT api prompt history during =
      (some apology, history ++ [userTurn prompt] ++ pushedTurns during) := by
  unfold chatWithGPT chatStart chatFinish
  simp only [hfail, chatRun_eq]

theorem chatWithGPT_reply (api : ChatApi) (prompt : Option String) (history : List Turn)
    (during : List ChatEvent) (reply : Option String)
    (hreply : apiReply (api (history ++ [userTurn prompt])) = some reply) :
    chatWithGPT api prompt history during =
      (reply, history ++ [userTurn prompt] ++ pushedTurns during ++ [assistantTurn reply]) := by
  unfold chatWithGPT chatStart chatFinish
  simp only [hreply, chatRun_eq]

/-- When the request has no `date`, or an empty one, `saveAudio` answers 500 and
persists nothing, whatever the summarization call gives. -/
theorem saveAudio_without_date (api : ChatApi) (user : Identity) (body : SaveAudioBody)
    (now : Nat) (db : Store) (history : List Turn) (during : List ChatEvent)
    (hdate : body.date = none ∨ body.date = some "") :
    (saveAudio api user body now db history during).1 =
        Response.msg 500 "Internal server error" ∧
    (saveAudio api user body now db history during).2.1 = db := by
  unfold saveAudio Audio.create
  rcases hdate with hd | hd <;> simp only [hd, requiredString] <;> split <;> simp_all

/-- With `req.user.email` set and a non-empty `date`, `saveAudio` answers 201
with a record whose `audio` is what `chatWithGPT` returned, and appends it. -/
theorem saveAudio_with_date (api : ChatApi) (user : Identity) (body : SaveAudioBody)
    (now : Nat) (db : Store) (history : List Turn) (during : List ChatEvent) (d : String)
    (hmail : user.email ≠ "") (hdate : body.date = some d) (hd : d ≠ "") :
    (saveAudio api user body now db history during).1 =
        Response.msgData 201 "Audio entry saved successfully!"
          { email := user.email, date := d,
            audio := (chatWithGPT api body.postExperience history during).1,
            createdAt := now } ∧
    (saveAudio api user body now db history during).2.1 =
        { db with audios := db.audios ++
            [{ email := user.email, date := d,
               audio := (chatWithGPT api body.postExperience history during).1,
               createdAt := now }] } := by
  unfold saveAudio
  simp only [hdate, Audio.create, requiredString, if_neg hmail, if_neg hd, and_self]

/-- The response and the store after `saveAudio` depend on the summarization
call only through the value `chatWithGPT` returns. -/
theorem saveAudio_of_returned (api api' : ChatApi) (user : Identity) (body : SaveAudioBody)
    (now : Nat) (db : Store) (history : List Turn) (during during' : List ChatEvent)
    (hsame : (chatWithGPT api body.postExperience history during).1 =
      (chatWithGPT api' body.postExperience history during').1) :
    (saveAudio api user body now db history during).1 =
        (saveAudio api' user body now db history during').1 ∧
    (saveAudio api user body now db history during).2.1 =
        (saveAudio api' user body now db history during').2.1 := by
  unfold saveAudio
  simp only [hsame]
  cases Audio.create user.email body.date
    (chatWithGPT api' body.postExperience history during').1 now <;> simp

/-- C10, as amended. When the call rejects (transport or API error) or the
reply cannot be read from the response, `chatWithGPT` returns the fixed apology
string, and `saveAudio` answers as for a call that succeeded with that string as
its reply, the same whatever the failure was: with `req.user.email` set and a
non-empty `date` it answers 201 with the record `{ email, date, audio: apology }`,
which it appends to the collection; without a `date` it answers 500 and persists
nothing, as it does whatever the call gives. A response whose message has
`content` null is not such a failure: `chatWithGPT` returns null and, with a
`date`, the record is persisted without `audio` and the answer is 201. -/
theorem saveAudio_masks_failure (api : ChatApi) (user : Identity) (body : SaveAudioBody)
    (now : Nat) (db : Store) (history : List Turn) (during : List ChatEvent)
    (hfail : apiReply (api (history ++ [userTurn body.postExperience])) = none) :
    (chatWithGPT api body.postExperience history during).1 =
      some "I'm sorry, but there was an error processing your request. Please try again." ∧
    (∀ (api' : ChatApi) (during' : List ChatEvent),
      (apiReply (api' (history ++ [userTurn body.postExperience])) = some (some apology) ∨
        apiReply (api' (history ++ [userTurn body.postExperience])) = none) →
      (saveAudio api user body now db history during).1 =
          (saveAudio api' user body now db history during').1 ∧
      (saveAudio api user body now db history during).2.1 =
          (saveAudio api' user body now db history during').2.1) ∧
    (∀ d, user.email ≠ "" → body.date = some d → d ≠ "" →
      (saveAudio api user body now db history during).1 =
          Response.msgData 201 "Audio entry saved successfully!"
            { email := user.email, date := d, audio := some apology, createdAt := now } ∧
      (saveAudio api user body now db history during).2.1 =
          { db with audios := db.audios ++
              [{ email := user.email, date := d, audio := some apology, createdAt := now }] }) ∧
    ((body.date = none ∨ body.date = some "") →
      ∀ (api' : ChatApi) (during' : List ChatEvent),
        (saveAudio api' user body now db history during').1 =
            Response.msg 500 "Internal server error" ∧
        (saveAudio api' user body now db history during').2.1 = db) ∧
    (∀ (api' : ChatApi) (during' : List ChatEvent),
      apiReply (api' (history ++ [userTurn body.postExperience])) = some none →
      (chatWithGPT api' body.postExperience history during').1 = none ∧
      ∀ d, user.email ≠ "" → body.date = some d → d ≠ "" →
        (saveAudio api' user body now db history during').1 =
            Response.msgData 201 "Audio entry saved successfully!"
              { email := user.email, date := d, audio := none, createdAt := now } ∧
        (saveAudio api' user body now db history during').2.1 =
            { db with audios := db.audios ++
                [{ email := user.email, date := d, audio := none, createdAt := now }] }) := by
  have hret : (chatWithGPT api body.postExperience history during).1 = some apology := by
    rw [chatWithGPT_failure api body.postExperience history during hfail]
  refine ⟨hret, ?_, ?_, ?_, ?_⟩
  · intro api' during' hsucc
    apply saveAudio_of_returned
    rw [hret]
    rcases hsucc with hs | hs
    · rw [chatWithGPT_reply api' body.postExperience history during' (some apology) hs]
    · rw [chatWithGPT_failure api' body.postExperience history during' hs]
  · intro d hmail hdate hd
    have hw := saveAudio_with_date api user body now db history during d hmail hdate hd
    rw [hret] at hw
    exact hw
  · intro hdate api' during'
    exact saveAudio_without_date api' user body now db history during' hdate
  · intro api' during' hnull
    have hret' : (chatWithGPT api' body.postExperience history during').1 = none := by
      rw [chatWithGPT_reply api' body.postExperience history during' none hnull]
    refine ⟨hret', ?_⟩
    intro d hmail hdate hd
    have hw := saveAudio_with_date api' user body now db history during' d hmail hdate hd
    rw [hret'] at hw
    exact hw

/-- C10 as amended, with the endpoint down and a dated request. -/
theorem saveAudio_masks_failure_witness :
    (chatWithGPT downApi (some "I feel anxious") (initialHistory "You summarize.") []).1 =
      some "I'm sorry, but there was an error processing your request. Please try again." ∧
    (saveAudio downApi ⟨0, "ann@example.com", "Ann"⟩ ⟨some "I feel anxious", some "2024-03-05"⟩ 7
        Store.empty (initialHistory "You summarize.") []).1 =
      Response.msgData 201 "Audio entry saved successfully!"
        { email := "ann@example.com", date := "2024-03-05", audio := some apology,
          createdAt := 7 } ∧
    (saveAudio downApi ⟨0, "ann@example.com", "Ann"⟩ ⟨some "I feel anxious", some "2024-03-05"⟩ 7
        Store.empty (initialHistory "You summarize.") []).2.1.audios =
      [{ email := "ann@example.com", date := "2024-03-05", audio := some apology,
         createdAt := 7 }] := by
  have key := saveAudio_masks_failure downApi ⟨0, "ann@example.com", "Ann"⟩
    ⟨some "I feel anxious", some "2024-03-05"⟩ 7 Store.empty (initialHistory "You summarize.")
    [] rfl
  have hdated := key.2.2.1 "2024-03-05" (by decide) rfl (by decide)
  refine ⟨key.1, hdated.1, ?_⟩
  rw [hdated.2]
  rfl

/-- C10, as stated, fails at a response without a usable reply: the endpoint
answers with a message whose `content` is null, `chatWithGPT` returns null and
not the apology string, pushes an assistant turn without content, and
`saveAudio` answers 201 with a record that has no `audio`. -/
theorem saveAudio_null_content_not_masked :
    readReply (some [{ message := some { content := none } }]) = some none ∧
    (chatWithGPT nullContentApi (some "I feel anxious") (initialHistory "You summarize.") []) =
      (none, initialHistory "You summarize." ++
        [userTurn (some "I feel anxious"), assistantTurn none]) ∧
    (chatWithGPT nullContentApi (some "I feel anxious") (initialHistory "You summarize.") []).1 ≠
      some apology ∧
    (saveAudio nullContentApi ⟨0, "ann@example.com", "Ann"⟩
        ⟨some "I feel anxious", some "2024-03-05"⟩ 7 Store.empty
        (initialHistory "You summarize.") []).1 =
      Response.msgData 201 "Audio entry saved successfully!"
        { email := "ann@example.com", date := "2024-03-05", audio := none, createdAt := 7 } ∧
    (saveAudio nullContentApi ⟨0, "ann@example.com", "Ann"⟩
        ⟨some "I feel anxious", some "2024-03-05"⟩ 7 Store.empty
        (initialHistory "You summarize.") []).2.1.audios =
      [{ email := "ann@example.com", date := "2024-03-05", audio := none, createdAt := 7 }] := by
  refine ⟨by decide, by decide, by decide, by decide, by decide⟩

/-! ## Theorems: profile aggregation -/

theorem findByEmail_eq_nil {α : Type} (emailOf : α → String) (docs : List α) (email : String)
    (hzero : ∀ d ∈ docs, emailOf d ≠ email) : findByEmail emailOf docs email = [] := by
  unfold findByEmail
  rw [List.filter_eq_nil_iff]
  intro d hd
  simpa using hzero d hd

theorem findLatestByEmail_eq_none {α : Type} (emailOf : α → String) (createdAt : α → Nat)
    (docs : List α) (email : String) (hzero : ∀ d ∈ docs, emailOf d ≠ email) :
    findLatestByEmail emailOf createdAt docs email = none := by
  unfold findLatestByEmail
  rw [findByEmail_eq_nil emailOf docs email hzero]
  rfl

/-- The latest-record query gives `null` only when no document matches. -/
theorem latestOf_eq_none_iff {α : Type} (createdAt : α → Nat) (docs : List α) :
    latestOf createdAt docs = none ↔ docs = [] := by
  cases docs with
  | nil => simp [latestOf]
  | cons d rest =>
    simp only [latestOf, reduceCtorEq, iff_false]
    cases latestOf createdAt rest with
    | none => simp
    | some later => simp only; split_ifs <;> simp

/-- What the latest-record query gives is one of the documents, and none of
them was created later. -/
theorem latestOf_spec {α : Type} (createdAt : α → Nat) (docs : List α) (d : α)
    (hd : latestOf createdAt docs = some d) :
    d ∈ docs ∧ ∀ e ∈ docs, createdAt e ≤ createdAt d := by
  induction docs generalizing d with
  | nil => simp [latestOf] at hd
  | cons x rest ih =>
    simp only [latestOf] at hd
    cases hl : latestOf createdAt rest with
    | none =>
      rw [hl] at hd
      simp only [Option.some.injEq] at hd
      subst hd
      have hnil := (latestOf_eq_none_iff createdAt rest).mp hl
      subst hnil
      simp
    | some later =>
      rw [hl] at hd
      obtain ⟨hmem, hmax⟩ := ih later hl
      simp only at hd
      split_ifs at hd with hlt
      · simp only [Option.some.injEq] at hd
        subst hd
        refine ⟨List.mem_cons_of_mem _ hmem, ?_⟩
        intro e he
        rcases List.mem_cons.mp he with rfl | he
        · exact Nat.le_of_lt hlt
        · exact hmax e he
      · simp only [Option.some.injEq] at hd
        subst hd
        refine ⟨List.mem_cons_self _ _, ?_⟩
        intro e he
        rcases List.mem_cons.mp he with rfl | he
        · exact Nat.le_refl _
        · exact Nat.le_trans (hmax e he) (Nat.le_of_not_lt hlt)

theorem profile_found (h : Host) (db : Store) (email : String) (u : User) (hemail : email ≠ "")
    (hu : findOneByEmail h db email = some u) :
    profile h ⟨some email⟩ db =
      Response.msgData 200 "Profile data fetched successfully"
        { user := u.view
          dates := (findByEmail Journal.email db.journals email).map fun journal =>
            journal.experienceDate
          journalAllData := findByEmail Journal.email db.journals email
          onboardingQuestion :=
            findLatestByEmail OnboardingQuestion.email OnboardingQuestion.createdAt
              db.onboardingQuestions email
          journals := findLatestByEmail Journal.email Journal.createdAt db.journals email
          muscleSelections :=
            findLatestByEmail MuscleSelection.email MuscleSelection.createdAt
              db.muscleSelections email
          journeys := findLatestByEmail Journey.email Journey.createdAt db.journeys email
          postExperiences :=
            findLatestByEmail PostExperience.email PostExperience.createdAt
              db.postExperiences email
          audios := findLatestByEmail Audio.email Audio.createdAt db.audios email
          muscleSelectionsAll := findByEmail MuscleSelection.email db.muscleSelections email
          journeysAll := findByEmail Journey.email db.journeys email
          postExperiencesAll := findByEmail PostExperience.email db.postExperiences email
          audiosAll := findByEmail Audio.email db.audios email } := by
  unfold profile
  simp only [truthyString, if_neg hemail, hu]

/-- C11. For a profile request whose `email` is set and names an existing
user, the response is 200 `"Profile data fetched successfully"` whatever the
collections hold. For each collection with no record under that email the
latest-record field is `null` and the full-history field is the empty list;
`dates` is the `experienceDate` of each record of `journalAllData`, in the same
order and of the same length, `journalAllData` being the journals under that
email in insertion order. -/
theorem profile_succeeds (h : Host) (db : Store) (email : String) (u : User)
    (hemail : email ≠ "") (hu : findOneByEmail h db email = some u) :
    ∃ data, profile h ⟨some email⟩ db =
        Response.msgData 200 "Profile data fetched successfully" data ∧
      data.user = u.view ∧
      data.dates = data.journalAllData.map (fun journal => journal.experienceDate) ∧
      data.dates.length = data.journalAllData.length ∧
      data.journalAllData = db.journals.filter (fun journal => journal.email == email) ∧
      ((∀ r ∈ db.onboardingQuestions, r.email ≠ email) → data.onboardingQuestion = none) ∧
      ((∀ r ∈ db.journals, r.email ≠ email) →
        data.journals = none ∧ data.journalAllData = [] ∧ data.dates = []) ∧
      ((∀ r ∈ db.muscleSelections, r.email ≠ email) →
        data.muscleSelections = none ∧ data.muscleSelectionsAll = []) ∧
      ((∀ r ∈ db.journeys, r.email ≠ email) → data.journeys = none ∧ data.journeysAll = []) ∧
      ((∀ r ∈ db.postExperiences, r.email ≠ email) →
        data.postExperiences = none ∧ data.postExperiencesAll = []) ∧
      ((∀ r ∈ db.audios, r.email ≠ email) → data.audios = none ∧ data.audiosAll = []) := by
  refine ⟨_, profile_found h db email u hemail hu, rfl, rfl, ?_, rfl, ?_, ?_, ?_, ?_, ?_, ?_⟩
  · simp
  · intro hz
    exact findLatestByEmail_eq_none _ _ _ _ hz
  · intro hz
    have hnil := findByEmail_eq_nil Journal.email db.journals email hz
    refine ⟨findLatestByEmail_eq_none _ _ _ _ hz, hnil, ?_⟩
    simp only [hnil, List.map_nil]
  · intro hz
    exact ⟨findLatestByEmail_eq_none _ _ _ _ hz, findByEmail_eq_nil _ _ _ hz⟩
  · intro hz
    exact ⟨findLatestByEmail_eq_none _ _ _ _ hz, findByEmail_eq_nil _ _ _ hz⟩
  · intro hz
    exact ⟨findLatestByEmail_eq_none _ _ _ _ hz, findByEmail_eq_nil _ _ _ hz⟩
  · intro hz
    exact ⟨findLatestByEmail_eq_none _ _ _ _ hz, findByEmail_eq_nil _ _ _ hz⟩

/-- C11, on a store where Ann has two journal entries and one muscle selection
and nothing else, at the email `"ann@example.com"`. -/
theorem profile_succeeds_witness :
    "ann@example.com" ≠ "" ∧
    findOneByEmail demoHost annRecordsStore "ann@example.com" =
      some ⟨0, "ann@example.com", "hash:secret1", "Ann", false, 5⟩ ∧
    ∃ data, profile demoHost ⟨some "ann@example.com"⟩ annRecordsStore =
        Response.msgData 200 "Profile data fetched successfully" data ∧
      data.user = (⟨0, "ann@example.com", "hash:secret1", "Ann", false, 5⟩ : User).view ∧
      data.dates = data.journalAllData.map (fun journal => journal.experienceDate) ∧
      data.dates.length = data.journalAllData.length ∧
      data.journalAllData =
        annRecordsStore.journals.filter (fun journal => journal.email == "ann@example.com") ∧
      ((∀ r ∈ annRecordsStore.onboardingQuestions, r.email ≠ "ann@example.com") →
        data.onboardingQuestion = none) ∧
      ((∀ r ∈ annRecordsStore.journals, r.email ≠ "ann@example.com") →
        data.journals = none ∧ data.journalAllData = [] ∧ data.dates = []) ∧
      ((∀ r ∈ annRecordsStore.muscleSelections, r.email ≠ "ann@example.com") →
        data.muscleSelections = none ∧ data.muscleSelectionsAll = []) ∧
      ((∀ r ∈ annRecordsStore.journeys, r.email ≠ "ann@example.com") →
        data.journeys = none ∧ data.journeysAll = []) ∧
      ((∀ r ∈ annRecordsStore.postExperiences, r.email ≠ "ann@example.com") →
        data.postExperiences = none ∧ data.postExperiencesAll = []) ∧
      ((∀ r ∈ annRecordsStore.audios, r.email ≠ "ann@example.com") →
        data.audios = none ∧ data.audiosAll = []) :=
  ⟨by decide, by decide,
    profile_succeeds demoHost annRecordsStore "ann@example.com"
      ⟨0, "ann@example.com", "hash:secret1", "Ann", false, 5⟩ (by decide) (by decide)⟩

/-- The profile of Ann on that store: the two dates in insertion order, the
journal created last, the muscle selection, and `null` or the empty list for the
collections without a record. -/
theorem profile_ann_records :
    profile demoHost ⟨some "ann@example.com"⟩ annRecordsStore =
      Response.msgData 200 "Profile data fetched successfully"
        { user := ⟨0, "ann@example.com", "Ann", false, 5⟩
          dates := ["2024-03-05", "2024-02-01"]
          journalAllData :=
            [ ⟨"ann@example.com", "psilocybin", "clarity", "2024-03-05", none, none, 10⟩,
              ⟨"ann@example.com", "ayahuasca", "healing", "2024-02-01", some "calm", none, 20⟩ ]
          onboardingQuestion := none
          journals :=
            some ⟨"ann@example.com", "ayahuasca", "healing", "2024-02-01", some "calm", none, 20⟩
          muscleSelections := some ⟨"ann@example.com", "2024-03-05", ["CHEST", "ABS"], 30⟩
          journeys := none
          postExperiences := none
          audios := none
          muscleSelectionsAll := [⟨"ann@example.com", "2024-03-05", ["CHEST", "ABS"], 30⟩]
          journeysAll := []
          postExperiencesAll := []
          audiosAll := [] } := by
  decide

/-- The profile of a user without any record: 200, every latest-record field
`null`, every list empty. -/
theorem profile_ann_no_records :
    profile demoHost ⟨some "ann@example.com"⟩ annStore =
      Response.msgData 200 "Profile data fetched successfully"
        { user := ⟨0, "ann@example.com", "Ann", false, 5⟩
          dates := []
          journalAllData := []
          onboardingQuestion := none
          journals := none
          muscleSelections := none
          journeys := none
          postExperiences := none
          audios := none
          muscleSelectionsAll := []
          journeysAll := []
          postExperiencesAll := []
          audiosAll := [] } := by
  decide

/-- The user is looked up through the setters of its `email` path, the other
collections with the email as sent: `" Ann@Example.com"` finds Ann and none of
the records stored under `"ann@example.com"`. -/
theorem profile_queries_email_as_sent :
    (profile demoHost ⟨some " Ann@Example.com"⟩ annRecordsStore).status = 200 ∧
    (profile demoHost ⟨some " Ann@Example.com"⟩ annRecordsStore).data.map
        (fun data => (data.user.email, data.journalAllData, data.journals, data.dates)) =
      some ("ann@example.com", [], none, []) := by
  decide

/-- Without an `email` the response is 400, and 404 when no user has it. -/
theorem profile_failures (h : Host) (db : Store) :
    profile h ⟨none⟩ db = Response.msg 400 "Email is required" ∧
    profile h ⟨some ""⟩ db = Response.msg 400 "Email is required" ∧
    ∀ email, email ≠ "" → findOneByEmail h db email = none →
      profile h ⟨some email⟩ db = Response.msg 404 "User not found" := by
  refine ⟨rfl, rfl, ?_⟩
  intro email hemail hnone
  unfold profile
  simp only [truthyString, if_neg hemail, hnone]

end Luminate
